import Mathlib

/-!
Verification development for the core services of the api-catalog
repository: the conversation manager state machine
(`apps/api/src/services/conversation-manager.ts`), the line-based diff
engine (`apps/api/src/utils/diff.ts`), the quality assessment rubric
(`QualityAssessmentService`), the template/pattern analysis
(`apps/api/src/services/template-detection.ts`) and the agentic
generation orchestrator (`AgenticGenerationService.generateStream`).

All definitions are shallow embeddings of the TypeScript sources.
JavaScript strings are modelled by Lean `String`, with the handful of
string primitives the sources use (trim, split, includes, startsWith,
toLowerCase, join) re-implemented by structural recursion over
`String.data` so that everything computes by kernel reduction.
JavaScript `number` is modelled by `ℚ` (all arithmetic in these sources
stays well inside the exactly-representable range of doubles).
Asynchrony plays no semantic role: each service invocation is a
sequential computation, so `async` functions become plain functions and
the async generator `generateStream` becomes a function producing the
finite list of events it yields.  External collaborators (the AI
completion provider and the validation service) are oracles passed in as
function parameters; they are indexed by the number of calls made so far
in the run, which models a deterministic stateful stub and lets theorems
count oracle invocations.
-/

namespace ApiCatalog

/-! ### JavaScript string helpers -/

/-- Whitespace recognised by `String.prototype.trim` (the characters that
can occur in this code base). -/
def jsIsWhitespace (c : Char) : Bool :=
  c = ' ' || c = '\t' || c = '\n' || c = '\r' || c = '\x0b' || c = '\x0c'

/-- Drop leading whitespace characters. -/
def dropLeadingWs : List Char → List Char
  | [] => []
  | c :: cs => if jsIsWhitespace c then dropLeadingWs cs else c :: cs

/-- JavaScript `s.trim()`. -/
def jsTrim (s : String) : String :=
  String.mk (dropLeadingWs ((dropLeadingWs s.data.reverse).reverse))

/-- Split a character list at newline characters; JavaScript
`s.split('\n')` (which yields `[""]` on the empty string). -/
def splitNl : List Char → List (List Char)
  | [] => [[]]
  | c :: cs =>
    if c = '\n' then [] :: splitNl cs
    else
      match splitNl cs with
      | [] => [[c]]
      | l :: ls => (c :: l) :: ls

/-- JavaScript `s.split('\n')`. -/
def jsLines (s : String) : List String := (splitNl s.data).map String.mk

/-- The characters before the first `:`; JavaScript `s.split(':')[0]`. -/
def takeBeforeColon : List Char → List Char
  | [] => []
  | c :: cs => if c = ':' then [] else c :: takeBeforeColon cs

/-- Whether the first list is an initial segment of the second. -/
def leadsWith : List Char → List Char → Bool
  | [], _ => true
  | _ :: _, [] => false
  | p :: ps, c :: cs => p = c && leadsWith ps cs

/-- JavaScript `s.startsWith(pat)`. -/
def strStartsWith (s pat : String) : Bool := leadsWith pat.data s.data

/-- JavaScript `s.endsWith(pat)`. -/
def strEndsWith (s pat : String) : Bool := leadsWith pat.data.reverse s.data.reverse

/-- Substring search on character lists. -/
def hasSub (pat : List Char) : List Char → Bool
  | [] => leadsWith pat []
  | c :: t => leadsWith pat (c :: t) || hasSub pat t

/-- JavaScript `s.includes(pat)`. -/
def strIncludes (s pat : String) : Bool := hasSub pat.data s.data

/-- JavaScript `s.toLowerCase()` (ASCII, which is all these sources use). -/
def lowerStr (s : String) : String := String.mk (s.data.map Char.toLower)

/-- JavaScript `s.toUpperCase()` (ASCII). -/
def upperStr (s : String) : String := String.mk (s.data.map Char.toUpper)

/-- JavaScript `xs.join(sep)`. -/
def joinWith (sep : String) : List String → String
  | [] => ""
  | [x] => x
  | x :: y :: xs => x ++ sep ++ joinWith sep (y :: xs)

/-- JavaScript truthiness of an optional string (`undefined` and `""` are
falsy). -/
def truthyStr : Option String → Bool
  | none => false
  | some s => s ≠ ""

/-- JavaScript truthiness of an optional number (`undefined` and `0` are
falsy); used for `e.line ? ... : ...` style checks. -/
def truthyNat : Option Nat → Bool
  | none => false
  | some n => n ≠ 0

/-! ### Diff engine (`apps/api/src/utils/diff.ts`) -/

/-- Result of `generateDiff`. -/
structure DiffResult where
  added : List String
  removed : List String
  modified : List String
  preview : String
deriving DecidableEq, Repr

/-- Intermediate state of the diff walk: the four arrays the source
accumulates (`added`, `removed`, `modifiedList`, `previewLines`). -/
structure DiffScan where
  added : List String
  removed : List String
  modified : List String
  previewLines : List String
deriving DecidableEq, Repr

/-- The two-cursor walk of `generateDiff` (the `while` loop over
`originalLines`/`modifiedLines`).  Each branch mirrors one branch of the
source; elements are consed in walk order onto the result of the
remaining walk, which reproduces the source's `push` order. -/
def diffScan : List String → List String → DiffScan
  | [], [] => ⟨[], [], [], []⟩
  | [], modLine :: ms =>
    -- lines added at the end (origLine === null)
    let r := diffScan [] ms
    ⟨modLine :: r.added, r.removed, r.modified, ("+ " ++ modLine) :: r.previewLines⟩
  | origLine :: os, [] =>
    -- lines removed at the end (modLine === null)
    let r := diffScan os []
    ⟨r.added, origLine :: r.removed, r.modified, ("- " ++ origLine) :: r.previewLines⟩
  | origLine :: os, modLine :: ms =>
    if origLine = modLine then
      -- lines are the same
      let r := diffScan os ms
      ⟨r.added, r.removed, r.modified, ("  " ++ origLine) :: r.previewLines⟩
    else
      let origTrimmed := jsTrim origLine
      let modTrimmed := jsTrim modLine
      if origTrimmed ≠ "" ∧ modTrimmed ≠ "" ∧ origTrimmed ≠ modTrimmed then
        if jsTrim (String.mk (takeBeforeColon origLine.data)) =
            jsTrim (String.mk (takeBeforeColon modLine.data)) then
          -- same key, changed value: a modification
          let r := diffScan os ms
          ⟨r.added, r.removed, modLine :: r.modified,
            ("- " ++ origLine) :: ("+ " ++ modLine) :: r.previewLines⟩
        else
          -- different keys: treat as remove + add
          let r := diffScan os ms
          ⟨modLine :: r.added, origLine :: r.removed, r.modified,
            ("- " ++ origLine) :: ("+ " ++ modLine) :: r.previewLines⟩
      else if origTrimmed = "" ∧ modTrimmed ≠ "" then
        -- empty line vs content
        let r := diffScan (origLine :: os) ms
        ⟨modLine :: r.added, r.removed, r.modified, ("+ " ++ modLine) :: r.previewLines⟩
      else if origTrimmed ≠ "" ∧ modTrimmed = "" then
        -- content vs empty line
        let r := diffScan os (modLine :: ms)
        ⟨r.added, origLine :: r.removed, r.modified, ("- " ++ origLine) :: r.previewLines⟩
      else
        -- both empty/whitespace (or equal after trimming)
        let r := diffScan os ms
        ⟨r.added, r.removed, r.modified, ("  " ++ origLine) :: r.previewLines⟩
termination_by a b => a.length + b.length

/-- Whether a preview line records a change. -/
def isChangeLine (l : String) : Bool := strStartsWith l "+ " || strStartsWith l "- "

/-- One pass of the `significantPreview` filter: keep a line when it is a
change or has a change directly before (`prevChange`) or after it. -/
def significantGo (prevChange : Bool) : List String → List String
  | [] => []
  | [x] => if isChangeLine x || prevChange then [x] else []
  | x :: y :: rest =>
    (if isChangeLine x || prevChange || isChangeLine y then [x] else [])
      ++ significantGo (isChangeLine x) (y :: rest)

/-- The `significantPreview` filter of the source: changed lines plus one
line of context on each side. -/
def significantOnly (lines : List String) : List String := significantGo false lines

/-- `generateDiff(original, modified)`. -/
def generateDiff (original modified : String) : DiffResult :=
  let originalLines := jsLines original
  let modifiedLines := jsLines modified
  let r := diffScan originalLines modifiedLines
  { added := r.added
    removed := r.removed
    modified := r.modified
    preview := joinWith "\n" ((significantOnly r.previewLines).take 50) }

/-- `generateChangeSummary(diff)`. -/
def generateChangeSummary (diff : DiffResult) : String :=
  let parts : List String :=
    (if diff.added.length > 0 then [toString diff.added.length ++ " lines added"] else [])
      ++ (if diff.removed.length > 0 then [toString diff.removed.length ++ " lines removed"] else [])
      ++ (if diff.modified.length > 0 then [toString diff.modified.length ++ " lines modified"] else [])
  let joined := joinWith ", " parts
  -- `parts.join(', ') || 'No changes detected'`
  if joined = "" then "No changes detected" else joined

/-! ### Conversation manager (`apps/api/src/services/conversation-manager.ts`)

The manager is an id-keyed facade over storage; all lifecycle operations
act on one conversation record at a time (`update` loads the record,
mutates it and persists it).  We model the per-conversation state
machine: each operation is a function on `ConversationState`, with the
manager's `new Date()` timestamps passed in as explicit `now` values. -/

inductive ConvMode
  | create
  | modify
deriving DecidableEq, Repr

inductive ConvStatus
  | active
  | paused
  | completed
  | error
deriving DecidableEq, Repr

inductive WaitingFor
  | questionAnswer
  | diffApproval
deriving DecidableEq, Repr

inductive MsgRole
  | user
  | assistant
  | system
deriving DecidableEq, Repr

structure ConversationMessage where
  role : MsgRole
  content : String
  timestamp : Nat
deriving DecidableEq, Repr

structure PendingQuestion where
  id : String
  question : String
  options : List (String × String)
  default : Option String := none
deriving DecidableEq, Repr

structure PendingDiff where
  before : String
  after : String
  summary : String
deriving DecidableEq, Repr

structure UserPreferencesRecord where
  authType : Option String := none
  paginationType : Option String := none
  errorFormat : Option String := none
deriving DecidableEq, Repr

structure ConversationContext where
  templateUsed : Option String := none
  patternsApplied : List String
  qualityScores : List ℚ
  userPreferences : UserPreferencesRecord
  previousRequests : List String
  appliedChanges : List String
deriving DecidableEq, Repr

structure ConversationState where
  id : String
  mode : ConvMode
  description : String
  currentSpec : Option String := none
  messages : List ConversationMessage
  status : ConvStatus
  waitingFor : Option WaitingFor := none
  pendingQuestion : Option PendingQuestion := none
  pendingDiff : Option PendingDiff := none
  context : ConversationContext
  createdAt : Nat
  updatedAt : Nat
deriving DecidableEq, Repr

/-- `Partial<ConversationContext>`: a field is `some v` when the key is
present in the partial object. -/
structure ContextPatch where
  templateUsed : Option String := none
  patternsApplied : Option (List String) := none
  qualityScores : Option (List ℚ) := none
  userPreferences : Option UserPreferencesRecord := none
  previousRequests : Option (List String) := none
  appliedChanges : Option (List String) := none
deriving DecidableEq, Repr

/-- `UpdateConversationOptions`: a field is `some v` when it is present
and not `undefined` at runtime.  The source guards every field with
`!== undefined` (or truthiness), so a field passed explicitly as
`undefined` behaves exactly like an absent field and is modelled as
`none`. -/
structure UpdateConversationOptions where
  currentSpec : Option String := none
  status : Option ConvStatus := none
  waitingFor : Option WaitingFor := none
  pendingQuestion : Option PendingQuestion := none
  pendingDiff : Option PendingDiff := none
  addMessage : Option ConversationMessage := none
  context : Option ContextPatch := none
deriving DecidableEq, Repr

structure CreateConversationOptions where
  mode : ConvMode
  description : String
  existingSpec : Option String := none
deriving DecidableEq, Repr

/-- `{...conversation.context, ...updates.context}`. -/
def mergeContext (c : ConversationContext) (p : ContextPatch) : ConversationContext :=
  { templateUsed := match p.templateUsed with | some t => some t | none => c.templateUsed
    patternsApplied := p.patternsApplied.getD c.patternsApplied
    qualityScores := p.qualityScores.getD c.qualityScores
    userPreferences := p.userPreferences.getD c.userPreferences
    previousRequests := p.previousRequests.getD c.previousRequests
    appliedChanges := p.appliedChanges.getD c.appliedChanges }

namespace ConversationManager

/-- `ConversationManager.create` (the fresh `randomUUID()` and
`new Date()` are passed in as `id` and `now`). -/
def create (id : String) (now : Nat) (options : CreateConversationOptions) : ConversationState :=
  { id := id
    mode := options.mode
    description := options.description
    currentSpec := options.existingSpec
    messages := []
    status := .active
    context :=
      { patternsApplied := []
        qualityScores := []
        userPreferences := {}
        previousRequests := [options.description]
        appliedChanges := [] }
    createdAt := now
    updatedAt := now }

/-- `ConversationManager.update`: merge the provided fields (each guarded
by `!== undefined`, or truthiness for `status`/`addMessage`), append
`addMessage`, spread `context`, refresh `updatedAt`. -/
def update (c : ConversationState) (updates : UpdateConversationOptions) (now : Nat) :
    ConversationState :=
  { c with
    currentSpec := match updates.currentSpec with | some s => some s | none => c.currentSpec
    status := updates.status.getD c.status
    waitingFor := match updates.waitingFor with | some w => some w | none => c.waitingFor
    pendingQuestion :=
      match updates.pendingQuestion with | some q => some q | none => c.pendingQuestion
    pendingDiff := match updates.pendingDiff with | some d => some d | none => c.pendingDiff
    messages := match updates.addMessage with | some m => c.messages ++ [m] | none => c.messages
    context := match updates.context with | some p => mergeContext c.context p | none => c.context
    updatedAt := now }

/-- `ConversationManager.pause`. -/
def pause (c : ConversationState) (waitingFor : WaitingFor) (now : Nat) : ConversationState :=
  update c { status := some .paused, waitingFor := some waitingFor } now

/-- `ConversationManager.resume`.  The source passes
`waitingFor: undefined, pendingQuestion: undefined, pendingDiff: undefined`,
which `update`'s `!== undefined` guards skip, so none of those fields is
actually cleared; they are therefore modelled as absent. -/
def resume (c : ConversationState) (now : Nat) : ConversationState :=
  update c { status := some .active } now

/-- `ConversationManager.complete`.  `currentSpec: finalSpec` only takes
effect when `finalSpec` is provided; the explicit `waitingFor: undefined`
is skipped by `update`'s guard, so `waitingFor` is not cleared. -/
def complete (c : ConversationState) (finalSpec : Option String) (now : Nat) :
    ConversationState :=
  update c { status := some .completed, currentSpec := finalSpec } now

/-- `ConversationManager.error`: a first `update` sets the status, a
second one appends the system error message. -/
def error (c : ConversationState) (errorMessage : String) (now : Nat) : ConversationState :=
  update (update c { status := some .error } now)
    { addMessage := some ⟨.system, "Error: " ++ errorMessage, now⟩ } now

end ConversationManager

/-- One manager operation applied to an existing conversation (all
operations other than `create`/`get`/`list`/`delete`). -/
inductive MgrOp where
  | update (u : UpdateConversationOptions) (now : Nat)
  | pause (w : WaitingFor) (now : Nat)
  | resume (now : Nat)
  | complete (finalSpec : Option String) (now : Nat)
  | error (msg : String) (now : Nat)
deriving Repr

/-- Apply one manager operation. -/
def applyOp (c : ConversationState) : MgrOp → ConversationState
  | .update u now => ConversationManager.update c u now
  | .pause w now => ConversationManager.pause c w now
  | .resume now => ConversationManager.resume c now
  | .complete fs now => ConversationManager.complete c fs now
  | .error m now => ConversationManager.error c m now

/-- Apply a sequence of manager operations. -/
def runOps (c : ConversationState) (ops : List MgrOp) : ConversationState :=
  ops.foldl applyOp c

/-- Whether an operation is a raw `update` with an arbitrary partial. -/
def MgrOp.isRawUpdate : MgrOp → Bool
  | .update _ _ => true
  | _ => false

/-- The invariant asserted by the specification for claim C4:
`waitingFor` is set iff the conversation is paused, and `pendingQuestion`
is present iff `waitingFor == 'question-answer'`. -/
def pausedWaitingInvariant (c : ConversationState) : Prop :=
  (c.waitingFor ≠ none ↔ c.status = .paused) ∧
    (c.pendingQuestion ≠ none ↔ c.waitingFor = some .questionAnswer)

instance (c : ConversationState) : Decidable (pausedWaitingInvariant c) := by
  unfold pausedWaitingInvariant; infer_instance

/-! ### Quality assessment service

The service parses the artifact with the external `SwaggerParser.parse`
(the Validation Oracle of the spec), then scores four categories over
the parsed `OpenAPIV3_1.Document`.  The parser is modelled as an oracle
`String → Except String OpenApiDoc`; the parsed document is typed after
the fields the service reads, with generic JSON payloads (`Json`) where
the source only walks the object tree (`countRefs`). -/

mutual

/-- A JSON value, used for schema bodies, examples and security scheme
definitions: the parts of the document the service only walks
generically. -/
inductive Json where
  | null
  | bool (b : Bool)
  | num (n : ℚ)
  | str (s : String)
  | arr (elems : JsonArr)
  | obj (fields : JsonObj)

inductive JsonArr where
  | nil
  | cons (hd : Json) (tl : JsonArr)

inductive JsonObj where
  | nil
  | cons (key : String) (val : Json) (tl : JsonObj)

end

/-- JavaScript truthiness of a JSON value. -/
def jsTruthyJson : Json → Bool
  | .null => false
  | .bool b => b
  | .num n => n ≠ 0
  | .str s => s ≠ ""
  | .arr _ => true
  | .obj _ => true

/-- Property lookup on a JSON object. -/
def jsonObjGet : JsonObj → String → Option Json
  | .nil, _ => none
  | .cons k v t, key => if k = key then some v else jsonObjGet t key

mutual

/-- `countRefs(obj)`: count every object whose `$ref` property is truthy,
recursing through all object values and array elements. -/
def countRefs : Json → Nat
  | .obj fields =>
    (match jsonObjGet fields "$ref" with
     | some v => if jsTruthyJson v then 1 else 0
     | none => 0) + countRefsObj fields
  | .arr elems => countRefsArr elems
  | _ => 0

def countRefsArr : JsonArr → Nat
  | .nil => 0
  | .cons h t => countRefs h + countRefsArr t

def countRefsObj : JsonObj → Nat
  | .nil => 0
  | .cons _ v t => countRefs v + countRefsObj t

end

/-- A media type object; only the presence/truthiness of
`example`/`examples` is inspected. -/
structure MediaTypeObject where
  «example» : Option Json := none
  examples : Option Json := none

/-- Either an inline object or a `{$ref: ...}` reference
(`'$ref' in x`). -/
inductive RefOr (α : Type) where
  | ref (target : String)
  | obj (value : α)

structure RequestBodyObject where
  content : Option (List (String × MediaTypeObject)) := none

structure ResponseObject where
  content : Option (List (String × MediaTypeObject)) := none

structure OperationObject where
  description : Option String := none
  summary : Option String := none
  operationId : Option String := none
  responses : Option (List (String × RefOr ResponseObject)) := none
  requestBody : Option (RefOr RequestBodyObject) := none

/-- A path item as iterated by `Object.entries(pathItem)`: its keys (HTTP
methods, plus any `x-...`/`parameters`/`servers` keys the loops skip)
with their values. -/
structure PathItemObject where
  entries : List (String × OperationObject)

structure ServerObject where
  url : String

/-- The `components` section.  `keysOther` lists the keys of the
components object besides `schemas`/`securitySchemes`, so that
`Object.keys(spec.components).length` is recoverable. -/
structure ComponentsObject where
  schemas : Option (List (String × Json)) := none
  securitySchemes : Option (List (String × Json)) := none
  keysOther : List String := []

/-- `Object.keys(spec.components).length`. -/
def ComponentsObject.keysLength (c : ComponentsObject) : Nat :=
  (if c.schemas.isSome then 1 else 0) + (if c.securitySchemes.isSome then 1 else 0)
    + c.keysOther.length

/-- The parsed `OpenAPIV3_1.Document`, typed after the fields the
service reads. -/
structure OpenApiDoc where
  openapi : Option String := none
  paths : Option (List (String × PathItemObject)) := none
  components : Option ComponentsObject := none
  servers : Option (List ServerObject) := none

structure QualityIssue where
  category : String
  severity : String
  message : String
  path : Option String := none
deriving DecidableEq, Repr

structure QualityScore where
  total : ℤ
  completeness : ℚ
  «structure» : ℚ
  standards : ℚ
  bestPractices : ℚ
deriving DecidableEq, Repr

structure QualityReport where
  score : QualityScore
  issues : List QualityIssue
  suggestions : List String
  passed : Bool
deriving DecidableEq, Repr

namespace QualityAssessmentService

/-- `PASSING_SCORE`. -/
def PASSING_SCORE : ℤ := 85

/-- `Math.round` (round half toward positive infinity). -/
def jsRound (q : ℚ) : ℤ := ⌊q + 1 / 2⌋

/-- Keys skipped when iterating a path item:
`method.startsWith('x-') || method === 'parameters' || method === 'servers'`. -/
def skippedPathItemKey (method : String) : Bool :=
  strStartsWith method "x-" || method = "parameters" || method = "servers"

/-- All `(path, method, operation)` triples iterated by the per-operation
loops, with the skip conditions applied (and `if (!pathItem) continue`
vacuous for a typed document). -/
def docOperations (doc : OpenApiDoc) : List (String × String × OperationObject) :=
  match doc.paths with
  | none => []
  | some ps =>
    ps.flatMap fun pkv =>
      (pkv.2.entries.filter fun e => !skippedPathItemKey e.1).map fun e => (pkv.1, e.1, e.2)

/-- `!op.description || op.description.trim().length === 0`. -/
def opMissingDescription (op : OperationObject) : Bool :=
  match op.description with
  | none => true
  | some d => jsTrim d = ""

/-- `!op.summary || op.summary.trim().length === 0`. -/
def opMissingSummary (op : OperationObject) : Bool :=
  match op.summary with
  | none => true
  | some s => jsTrim s = ""

/-- `Object.keys(op.responses || {}).some(code => code.startsWith('4') || code.startsWith('5'))`. -/
def opHasErrorResponse (op : OperationObject) : Bool :=
  (op.responses.getD []).any fun kv => strStartsWith kv.1 "4" || strStartsWith kv.1 "5"

/-- `mediaType.example || mediaType.examples` (truthiness of the values). -/
def mediaTypeHasExample (m : MediaTypeObject) : Bool :=
  (match m.«example» with | some v => jsTruthyJson v | none => false)
    || (match m.examples with | some v => jsTruthyJson v | none => false)

/-- `hasExamples(operation)`: an example in the request body content or in
any non-`$ref` response content. -/
def hasExamples (op : OperationObject) : Bool :=
  (match op.requestBody with
   | some (.obj rb) => (rb.content.getD []).any fun kv => mediaTypeHasExample kv.2
   | _ => false)
    || (match op.responses with
        | some rs =>
          rs.any fun kv =>
            match kv.2 with
            | .obj r => (r.content.getD []).any fun m => mediaTypeHasExample m.2
            | .ref _ => false
        | none => false)

/-- The completeness points deducted for one operation (2.5 for a missing
description, 1.25 for a missing summary, 2.5 for no 4xx/5xx response,
3.75 for no examples). -/
def opCompletenessDeduction (op : OperationObject) : ℚ :=
  (if opMissingDescription op then 5 / 2 else 0)
    + (if opMissingSummary op then 5 / 4 else 0)
    + (if !opHasErrorResponse op then 5 / 2 else 0)
    + (if !hasExamples op then 15 / 4 else 0)

/-- The issues pushed for one operation by `assessCompleteness`. -/
def opCompletenessIssues (path method : String) (op : OperationObject) : List QualityIssue :=
  (if opMissingDescription op then
      [{ category := "completeness", severity := "warning", message := "Missing description",
         path := some (upperStr method ++ " " ++ path) }]
    else [])
    ++ (if !opHasErrorResponse op then
          [{ category := "completeness", severity := "warning",
             message := "No error responses defined",
             path := some (upperStr method ++ " " ++ path) }]
        else [])

/-- `assessCompleteness` (weight 40): returns the clamped score with the
issues and suggestions it pushes. -/
def assessCompleteness (doc : OpenApiDoc) : ℚ × List QualityIssue × List String :=
  let ops := docOperations doc
  let missingDescriptions := (ops.filter fun o => opMissingDescription o.2.2).length
  let missingSummaries := (ops.filter fun o => opMissingSummary o.2.2).length
  let missingErrorResponses := (ops.filter fun o => !opHasErrorResponse o.2.2).length
  let missingExamples := (ops.filter fun o => !hasExamples o.2.2).length
  let score : ℚ := 40 - (ops.map fun o => opCompletenessDeduction o.2.2).sum
  let issues := ops.flatMap fun o => opCompletenessIssues o.1 o.2.1 o.2.2
  let suggestions :=
    (if missingDescriptions > 0 then
        ["Add descriptions to " ++ toString missingDescriptions ++ " operations"]
      else [])
      ++ (if missingSummaries > 0 then
            ["Add summaries to " ++ toString missingSummaries ++ " operations"]
          else [])
      ++ (if missingErrorResponses > 0 then
            ["Add error responses (400, 500) to " ++ toString missingErrorResponses
              ++ " operations"]
          else [])
      ++ (if missingExamples > 0 then
            ["Add request/response examples to " ++ toString missingExamples ++ " operations"]
          else [])
  (max 0 score, issues, suggestions)

/-- `!spec.components || Object.keys(spec.components).length === 0`. -/
def componentsEmpty (doc : OpenApiDoc) : Bool :=
  match doc.components with
  | none => true
  | some c => c.keysLength = 0

/-- `!spec.components.schemas || Object.keys(spec.components.schemas).length === 0`
(evaluated in the branch where `components` exists). -/
def componentsSchemasEmpty (doc : OpenApiDoc) : Bool :=
  match doc.components with
  | none => true
  | some c => match c.schemas with
    | none => true
    | some l => l.length = 0

/-- `spec.components?.schemas && Object.keys(spec.components.schemas).length > 0`. -/
def componentsHasSchemas (doc : OpenApiDoc) : Bool :=
  match doc.components with
  | none => false
  | some c => match c.schemas with
    | none => false
    | some l => l.length > 0

/-- Reference count of a media type object (its `example`/`examples`
payloads). -/
def countRefsMedia (m : MediaTypeObject) : Nat :=
  (match m.«example» with | some v => countRefs v | none => 0)
    + (match m.examples with | some v => countRefs v | none => 0)

def countRefsContent (c : Option (List (String × MediaTypeObject))) : Nat :=
  ((c.getD []).map fun kv => countRefsMedia kv.2).sum

/-- Reference count of an operation: `$ref` request bodies / responses
count one each, inline ones are walked. -/
def countRefsOperation (op : OperationObject) : Nat :=
  (match op.requestBody with
   | some (.ref _) => 1
   | some (.obj rb) => countRefsContent rb.content
   | none => 0)
    + ((op.responses.getD []).map fun kv =>
        match kv.2 with
        | .ref _ => 1
        | .obj r => countRefsContent r.content).sum

/-- `this.countRefs(spec)` on the typed document: every `$ref` reachable
in the object tree. -/
def countRefsDoc (doc : OpenApiDoc) : Nat :=
  ((doc.paths.getD []).map fun pkv =>
      (pkv.2.entries.map fun e => countRefsOperation e.2).sum).sum
    + (match doc.components with
       | some c =>
         ((c.schemas.getD []).map fun kv => countRefs kv.2).sum
           + ((c.securitySchemes.getD []).map fun kv => countRefs kv.2).sum
       | none => 0)

/-- `assessStructure` (weight 30). -/
def assessStructure (doc : OpenApiDoc) : ℚ × List QualityIssue × List String :=
  let score0 : ℚ := 30
  let refCount := countRefsDoc doc
  let firstCheck :=
    if componentsEmpty doc then
      (score0 - 15,
        [({ category := "structure", severity := "warning",
            message := "No components section defined - consider extracting reusable schemas" }
          : QualityIssue)],
        ["Extract common schemas to components section"])
    else if componentsSchemasEmpty doc then
      (score0 - 10, ([] : List QualityIssue), ["Define reusable schemas in components/schemas"])
    else (score0, [], [])
  let secondCheck :=
    if refCount = 0 ∧ componentsHasSchemas doc then
      (firstCheck.1 - 15,
        [({ category := "structure", severity := "info",
            message := "Schemas defined but not referenced - consider using $ref" }
          : QualityIssue)],
        ["Use $ref to reference reusable schemas"])
    else (firstCheck.1, [], [])
  (max 0 secondCheck.1, firstCheck.2.1 ++ secondCheck.2.1, firstCheck.2.2 ++ secondCheck.2.2)

/-- Matches `/^[A-Z][a-zA-Z0-9]*$/`. -/
def isPascalCase (s : String) : Bool :=
  match s.data with
  | [] => false
  | c :: cs => c.isUpper && cs.all fun d => d.isAlpha || d.isDigit

/-- Matches `/^[a-z][a-z0-9-]*$/`. -/
def isKebabCase (s : String) : Bool :=
  match s.data with
  | [] => false
  | c :: cs => c.isLower && cs.all fun d => d.isLower || d.isDigit || d = '-'

/-- `checkNamingConventions`: PascalCase schema names, kebab-case
operation ids (an absent or empty `operationId` is skipped by
truthiness). -/
def checkNamingConventions (doc : OpenApiDoc) : List QualityIssue :=
  (match doc.components with
   | some c =>
     (c.schemas.getD []).flatMap fun kv =>
       if !isPascalCase kv.1 then
         [{ category := "standards", severity := "info",
            message := "Schema name should be PascalCase: " ++ kv.1,
            path := some ("components.schemas." ++ kv.1) }]
       else []
   | none => [])
    ++ (docOperations doc).flatMap fun o =>
      match o.2.2.operationId with
      | some oid =>
        if oid ≠ "" ∧ !isKebabCase oid then
          [{ category := "standards", severity := "info",
             message := "operationId should be kebab-case: " ++ oid,
             path := some (o.2.1 ++ " " ++ o.1) }]
        else []
      | none => []

/-- `!spec.openapi || !spec.openapi.startsWith('3.1')` (an empty string is
falsy and also fails `startsWith`). -/
def versionBad (doc : OpenApiDoc) : Bool :=
  match doc.openapi with
  | none => true
  | some v => !strStartsWith v "3.1"

/-- `assessStandards` (weight 20). -/
def assessStandards (doc : OpenApiDoc) : ℚ × List QualityIssue × List String :=
  let score0 : ℚ := 20
  let versionCheck :=
    if versionBad doc then
      (score0 - 10,
        [({ category := "standards", severity := "error",
            message := "OpenAPI version should be 3.1.x, got "
              ++ (match doc.openapi with | some v => v | none => "undefined") }
          : QualityIssue)],
        ["Update to OpenAPI 3.1.x"])
    else (score0, ([] : List QualityIssue), ([] : List String))
  let namingIssues := checkNamingConventions doc
  let namingCheck :=
    if namingIssues.length > 0 then
      (versionCheck.1 - min 10 ((namingIssues.length : ℚ) * 2), namingIssues,
        ["Follow naming conventions: PascalCase for schemas, camelCase for properties, kebab-case for operationIds"])
    else (versionCheck.1, [], [])
  (max 0 namingCheck.1, versionCheck.2.1 ++ namingCheck.2.1,
    versionCheck.2.2 ++ namingCheck.2.2)

/-- Property lookup on a path item (`pathItem.post` etc.). -/
def pathItemGet (p : PathItemObject) (key : String) : Option OperationObject :=
  (p.entries.find? fun e => e.1 = key).map (·.2)

/-- `hasProtectedEndpoints(spec)`. -/
def hasProtectedEndpoints (doc : OpenApiDoc) : Bool :=
  (doc.paths.getD []).any fun pkv =>
    (pathItemGet pkv.2 "post").isSome || (pathItemGet pkv.2 "put").isSome
      || (pathItemGet pkv.2 "delete").isSome || (pathItemGet pkv.2 "patch").isSome

/-- `!spec.components?.securitySchemes || Object.keys(...).length === 0`. -/
def securitySchemesEmpty (doc : OpenApiDoc) : Bool :=
  match doc.components with
  | none => true
  | some c => match c.securitySchemes with
    | none => true
    | some l => l.length = 0

/-- Search for `/\/v\d+/`. -/
def hasVSegmentChars : List Char → Bool
  | [] => false
  | c :: cs =>
    (c = '/' && (match cs with | 'v' :: d :: _ => d.isDigit | _ => false)) || hasVSegmentChars cs

def hasVSegment (s : String) : Bool := hasVSegmentChars s.data

/-- Test for `/^\/v\d+/`. -/
def startsWithVSegment (s : String) : Bool :=
  match s.data with
  | '/' :: 'v' :: d :: _ => d.isDigit
  | _ => false

/-- `hasVersioning(spec)`. -/
def hasVersioning (doc : OpenApiDoc) : Bool :=
  (match doc.servers with
   | some ss => ss.any fun s => hasVSegment s.url
   | none => false)
    || (match doc.paths with
        | some ps => ps.any fun p => startsWithVSegment p.1
        | none => false)

/-- `assessBestPractices` (weight 10). -/
def assessBestPractices (doc : OpenApiDoc) : ℚ × List QualityIssue × List String :=
  let score0 : ℚ := 10
  let securityCheck :=
    if hasProtectedEndpoints doc ∧ securitySchemesEmpty doc then
      (score0 - 5,
        [({ category := "bestPractices", severity := "info",
            message := "Consider adding security schemes for protected endpoints" }
          : QualityIssue)],
        ["Define security schemes in components/securitySchemes"])
    else (score0, ([] : List QualityIssue), ([] : List String))
  let versioningCheck :=
    if !hasVersioning doc then
      (securityCheck.1 - 5,
        [({ category := "bestPractices", severity := "info",
            message := "Consider adding API versioning (e.g., /v1/...)" } : QualityIssue)],
        ["Add API version to server URLs or paths"])
    else (securityCheck.1, [], [])
  (max 0 versioningCheck.1, securityCheck.2.1 ++ versioningCheck.2.1,
    securityCheck.2.2 ++ versioningCheck.2.2)

/-- The failing report returned when parsing throws. -/
def parseFailureReport (msg : String) : QualityReport :=
  { score := { total := 0, completeness := 0, «structure» := 0, standards := 0,
               bestPractices := 0 }
    issues := [{ category := "standards", severity := "error",
                 message := "Failed to parse spec: " ++ msg }]
    suggestions := ["Fix syntax errors in the OpenAPI specification"]
    passed := false }

/-- `assess(specYaml)`, parameterised by the external parser oracle. -/
def assess (parse : String → Except String OpenApiDoc) (specYaml : String) : QualityReport :=
  match parse specYaml with
  | .error e => parseFailureReport e
  | .ok spec =>
    let completenessR := assessCompleteness spec
    let structureR := assessStructure spec
    let standardsR := assessStandards spec
    let bestPracticesR := assessBestPractices spec
    let total := jsRound (completenessR.1 + structureR.1 + standardsR.1 + bestPracticesR.1)
    { score := { total := total, completeness := completenessR.1, «structure» := structureR.1,
                 standards := standardsR.1, bestPractices := bestPracticesR.1 }
      issues := completenessR.2.1 ++ structureR.2.1 ++ standardsR.2.1 ++ bestPracticesR.2.1
      suggestions :=
        completenessR.2.2 ++ structureR.2.2 ++ standardsR.2.2 ++ bestPracticesR.2.2
      passed := decide (total ≥ PASSING_SCORE) }

end QualityAssessmentService

/-! ### Template detection (`apps/api/src/services/template-detection.ts`) -/

structure TemplateInfo where
  name : String
  path : String
  domain : String
  description : String
  keywords : List String
deriving DecidableEq, Repr

def restCrudTemplate : TemplateInfo :=
  { name := "rest-crud"
    path := "domains/rest-crud/template.yaml"
    domain := "REST CRUD"
    description := "Standard REST API with CRUD operations"
    keywords := ["crud", "rest", "restful", "resource", "entity", "list", "create", "read",
      "update", "delete", "get", "post", "put", "patch", "standard"] }

def ecommerceTemplate : TemplateInfo :=
  { name := "ecommerce"
    path := "domains/ecommerce/template.yaml"
    domain := "E-commerce"
    description := "E-commerce API with products, carts, and orders"
    keywords := ["ecommerce", "e-commerce", "shop", "shopping", "store", "product", "cart",
      "order", "checkout", "payment", "inventory", "catalog", "purchase", "customer"] }

def saasTemplate : TemplateInfo :=
  { name := "saas"
    path := "domains/saas/template.yaml"
    domain := "SaaS"
    description := "SaaS application API with users, tenants, and subscriptions"
    keywords := ["saas", "tenant", "organization", "workspace", "team", "subscription",
      "billing", "account", "member", "role", "permission", "multi-tenant"] }

def TEMPLATES : List TemplateInfo := [restCrudTemplate, ecommerceTemplate, saasTemplate]

structure DetectionResult where
  template : TemplateInfo
  confidence : ℚ
  matchedKeywords : List String
deriving DecidableEq, Repr

/-- The per-template matches of `detectTemplate` (templates with at least
one matched keyword, with confidence `matchCount / keywords.length`). -/
def detectionResults (description : String) : List DetectionResult :=
  let lowerDescription := lowerStr description
  TEMPLATES.filterMap fun t =>
    let matchedKeywords := t.keywords.filter fun k => strIncludes lowerDescription k
    if matchedKeywords.length > 0 then
      -- `matchCount / template.keywords.length` (exact rational division,
      -- written with `mkRat` so that it computes by kernel reduction)
      some { template := t
             confidence := mkRat matchedKeywords.length t.keywords.length
             matchedKeywords := matchedKeywords }
    else none

/-- Stable insertion keeping descending confidence order
(`results.sort((a, b) => b.confidence - a.confidence)`, which is a
stable sort). -/
def insertByConfidence (r : DetectionResult) : List DetectionResult → List DetectionResult
  | [] => [r]
  | x :: xs => if x.confidence > r.confidence then x :: insertByConfidence r xs else r :: x :: xs

def sortByConfidence (l : List DetectionResult) : List DetectionResult :=
  l.foldr insertByConfidence []

/-- `detectTemplate(description)`: the best match when its confidence
exceeds 0.1, otherwise the rest-crud default.  The source's return type
admits `null` but the body always returns a result. -/
def detectTemplate (description : String) : Option DetectionResult :=
  let results := sortByConfidence (detectionResults description)
  match results with
  | best :: _ =>
    if best.confidence > mkRat 1 10 then some best
    else some { template := restCrudTemplate, confidence := 0, matchedKeywords := [] }
  | [] => some { template := restCrudTemplate, confidence := 0, matchedKeywords := [] }

/-- `getTemplateByName(name)`. -/
def getTemplateByName (name : String) : Option TemplateInfo :=
  TEMPLATES.find? fun t => t.name = name

/-! ### Agentic generation orchestrator (`AgenticGenerationService`)

`generateStream` is an async generator; we model one full consumption of
it as the finite list of events it yields, together with the number of
calls it made to the Completion Oracle (`provider.complete`) and the
Validation Oracle (`validationService.validate`).  Both oracles receive
the index of the call (how many calls of that kind the run has made so
far), modelling deterministic stateful stubs.  A thrown `Error` is
modelled as `Except.error` carrying the error message; the orchestrator
catches everything and converts it into a final `error` event. -/

inductive StreamEventType
  | status
  | question
  | result
  | diff
  | error
deriving DecidableEq, Repr

inductive StatusKind
  | analyzing
  | generating
  | validating
  | improving
  | complete
deriving DecidableEq, Repr

structure QuestionPayload where
  id : String
  text : String
  options : List String
  default : Option String := none
deriving DecidableEq, Repr

structure DiffPayload where
  added : List String
  removed : List String
  modified : List String
  preview : String
deriving DecidableEq, Repr

/-- An element of `validationErrors` on a stream event (the mapped
projection of a validation error). -/
structure StreamValidationError where
  message : String
  line : Option Nat := none
  column : Option Nat := none
  path : Option (List String) := none
deriving DecidableEq, Repr

/-- `StreamEvent`: one interface with a `type` discriminator and optional
payload fields, exactly as in the source. -/
structure StreamEvent where
  type : StreamEventType
  status : Option StatusKind := none
  message : Option String := none
  question : Option QuestionPayload := none
  spec : Option String := none
  diff : Option DiffPayload := none
  error : Option String := none
  validationErrors : Option (List StreamValidationError) := none
deriving DecidableEq, Repr

structure AIMessage where
  role : MsgRole
  content : String
deriving DecidableEq, Repr

structure AICompletionOptions where
  temperature : ℚ
  maxTokens : Nat
  model : Option String := none
deriving DecidableEq, Repr

structure AICompletionResult where
  content : String
  model : String
  tokensUsed : Option Nat := none
  finishReason : Option String := none
deriving DecidableEq, Repr

/-- A validation error from the shared validation service. -/
structure ValidationError where
  message : String
  path : Option (List String) := none
  line : Option Nat := none
  column : Option Nat := none
  severity : String := "error"
deriving DecidableEq, Repr

structure ValidationResult where
  valid : Bool
  errors : List ValidationError
deriving DecidableEq, Repr

inductive AuthType
  | bearer
  | apiKey
  | oauth2
deriving DecidableEq, Repr

/-- The string value of the `authType` union member. -/
def AuthType.toName : AuthType → String
  | .bearer => "bearer"
  | .apiKey => "apiKey"
  | .oauth2 => "oauth2"

structure UserPreferences where
  includePagination : Option Bool := none
  includeAuth : Option Bool := none
  authType : Option AuthType := none
  includeErrorHandling : Option Bool := none
deriving DecidableEq, Repr

structure AgenticGenerationRequest where
  description : String
  mode : Option ConvMode := none
  conversationHistory : List AIMessage := []
  currentSpec : Option String := none
  userPreferences : Option UserPreferences := none
  templateName : Option String := none
deriving DecidableEq, Repr

/-- The two external oracles of the orchestrator plus the provider's
configuration state.  Call index parameters model stateful stubs and let
theorems count invocations. -/
structure Oracles where
  isConfigured : Bool
  complete : Nat → List AIMessage → AICompletionOptions → Except String AICompletionResult
  validate : Nat → String → Except String ValidationResult

namespace AgenticGenerationService

def MAX_VALIDATION_FIX_ATTEMPTS : Nat := 3

def SYSTEM_PROMPT : String :=
  "You are an expert at creating OpenAPI 3.1 specifications.\n\nYour task is to generate valid, well-structured OpenAPI 3.1 specifications based on the user's description.\n\nGuidelines:\n- Always use OpenAPI 3.1.0 format\n- Include all required fields: openapi, info (title, version), paths\n- Use clear, descriptive titles and descriptions\n- Follow REST API best practices\n- Include appropriate HTTP methods (GET, POST, PUT, DELETE, PATCH)\n- Define request bodies and responses with proper schemas\n- Use standard HTTP status codes\n- Include examples where appropriate\n- Use kebab-case for operationIds\n- Use camelCase for property names in schemas\n- Use PascalCase for schema names\n- Always define reusable schemas in components section\n- Use $ref to reference schemas\n\nReturn ONLY the OpenAPI specification in YAML format. Do not include any explanations or markdown code blocks."

def MODIFY_SYSTEM_PROMPT : String :=
  "You are an expert at modifying OpenAPI 3.1 specifications.\n\nYour task is to update the existing OpenAPI specification based on the user's requested changes.\n\nGuidelines:\n- Maintain OpenAPI 3.1.0 format\n- Preserve existing structure unless explicitly asked to change it\n- Follow REST API best practices\n- Ensure all modifications are valid and maintain spec consistency\n- Use clear, descriptive titles and descriptions\n- Include examples where appropriate\n- Use kebab-case for operationIds\n- Use camelCase for property names in schemas\n- Use PascalCase for schema names\n\nReturn ONLY the updated OpenAPI specification in YAML format. Do not include any explanations or markdown code blocks."

def FIX_VALIDATION_PROMPT : String :=
  "You are an expert at fixing OpenAPI 3.1 specification validation errors.\n\nGiven an OpenAPI spec and a list of validation errors, fix all the errors while preserving the spec's functionality and structure.\n\nCommon fixes:\n- Fix YAML syntax errors (indentation, quotes, colons, etc.)\n- Add missing required fields (openapi, info.title, info.version, paths)\n- Fix invalid property names or values\n- Remove unknown/invalid properties\n- Ensure proper schema definitions\n- Fix reference ($ref) errors\n\nReturn ONLY the corrected OpenAPI specification in YAML format. Do not include explanations or markdown code blocks."

/-- Case-insensitive prefix test used for the `/^```ya?ml\n/i` wrapper
regex: the lowered text starts with the (lowercase) pattern. -/
def lowerPrefixMatch (s pat : String) : Bool := leadsWith pat.data (s.data.map Char.toLower)

/-- `spec.replace(/^```ya?ml\n/i, '')`. -/
def stripWrapperOpen (s : String) : String :=
  if lowerPrefixMatch s "```yaml\n" then String.mk (s.data.drop 8)
  else if lowerPrefixMatch s "```yml\n" then String.mk (s.data.drop 7)
  else s

/-- `spec.replace(/\n```$/, '')`. -/
def stripWrapperClose (s : String) : String :=
  if strEndsWith s "\n```" then String.mk (s.data.take (s.data.length - 4)) else s

/-- The response clean-up shared by `generateInitialSpec` and
`fixValidationErrors`: trim, strip a leading code fence, strip a
trailing code fence, trim again. -/
def stripWrappers (raw : String) : String :=
  jsTrim (stripWrapperClose (stripWrapperOpen (jsTrim raw)))

/-- `detectPatterns(description)`. -/
def detectPatterns (description : String) : List String :=
  let lower := lowerStr description
  (if strIncludes lower "list" || strIncludes lower "search" || strIncludes lower "many" then
      ["pagination"]
    else [])
    ++ (if strIncludes lower "auth" || strIncludes lower "login" || strIncludes lower "user"
          || strIncludes lower "protected" || strIncludes lower "secure" then
          ["authentication"]
        else [])
    ++ ["error-handling"]

structure PatternDecision where
  name : String
  included : Bool
  reason : String
deriving DecidableEq, Repr

/-- `request.userPreferences?.authType || 'bearer'`. -/
def authTypeOrBearer (request : AgenticGenerationRequest) : String :=
  match request.userPreferences.bind (·.authType) with
  | some a => a.toName
  | none => "bearer"

/-- The decision list accumulated in `patternDecisions` during the
analyze phase. -/
def patternDecisions (request : AgenticGenerationRequest) : List PatternDecision :=
  let suggestedPatterns := detectPatterns request.description
  (if suggestedPatterns.contains "pagination" then
      if (request.userPreferences.bind (·.includePagination)) ≠ some false then
        [{ name := "pagination", included := true,
           reason := "Auto-detected list/search operations" }]
      else
        [{ name := "pagination", included := false, reason := "Disabled by user preference" }]
    else [])
    ++ (if suggestedPatterns.contains "authentication" then
          if (request.userPreferences.bind (·.includeAuth)) = some true then
            [{ name := "authentication", included := true,
               reason := "Adding " ++ authTypeOrBearer request ++ " authentication" }]
          else
            [{ name := "authentication", included := false, reason := "Optional - not requested" }]
        else [])
    ++ (if (request.userPreferences.bind (·.includeErrorHandling)) ≠ some false then
          [{ name := "error-handling", included := true,
             reason := "RFC 7807 Problem Details format" }]
        else [])

/-- The `patterns` array accumulated alongside the decisions (only the
included ones are pushed). -/
def selectedPatterns (request : AgenticGenerationRequest) : List String :=
  let suggestedPatterns := detectPatterns request.description
  (if suggestedPatterns.contains "pagination"
        ∧ (request.userPreferences.bind (·.includePagination)) ≠ some false then
      ["pagination"]
    else [])
    ++ (if suggestedPatterns.contains "authentication"
          ∧ (request.userPreferences.bind (·.includeAuth)) = some true then
          ["authentication"]
        else [])
    ++ (if (request.userPreferences.bind (·.includeErrorHandling)) ≠ some false then
          ["error-handling"]
        else [])

/-- A `status` event. -/
def statusEvent (k : StatusKind) (msg : String) : StreamEvent :=
  { type := .status, status := some k, message := some msg }

/-- The informational `question` event of the analyze phase. -/
def questionEvent (decisions : List PatternDecision) : StreamEvent :=
  { type := .question
    question := some
      { id := "patterns-info"
        text := "Pattern recommendations (auto-applying based on analysis)"
        options := decisions.map fun p =>
          "[" ++ (if p.included then "✓" else " ") ++ "] " ++ p.name ++ ": " ++ p.reason
        default := none }
    message := some "Applying recommended patterns..." }

/-- The `improving` status event emitted before each fix attempt. -/
def improvingEvent (numErrors attempt : Nat) : StreamEvent :=
  statusEvent .improving
    ("Fixing " ++ toString numErrors ++ " validation error"
      ++ (if numErrors > 1 then "s" else "") ++ "... (attempt " ++ toString attempt ++ "/"
      ++ toString MAX_VALIDATION_FIX_ATTEMPTS ++ ")")

/-- One line of the exhausted-error message:
`` `${e.message}${e.line ? ` (line ${e.line})` : ''}` ``. -/
def validationErrorLine (e : ValidationError) : String :=
  e.message ++ (if truthyNat e.line then " (line " ++ toString (e.line.getD 0) ++ ")" else "")

/-- The single `error` event emitted when the repair loop hits its bound;
it carries the full remaining error list, with location when
available. -/
def exhaustedEvent (errors : List ValidationError) : StreamEvent :=
  { type := .error
    error := some ("Validation errors:\n- " ++ joinWith "\n- " (errors.map validationErrorLine))
    message := some "Generated spec has validation errors that could not be auto-fixed"
    validationErrors := some (errors.map fun e =>
      { message := e.message, line := e.line, column := e.column, path := e.path }) }

/-- The `error` event produced by the orchestrator's catch-all handler. -/
def catchErrorEvent (msg : String) : StreamEvent :=
  { type := .error, error := some msg, message := some "Failed to generate specification" }

/-- The `diff` event of modify mode. -/
def diffEvent (d : DiffResult) (summary : String) : StreamEvent :=
  { type := .diff
    diff := some { added := d.added, removed := d.removed, modified := d.modified,
                   preview := d.preview }
    message := some summary }

/-- The terminal `result` event. -/
def resultEvent (spec : String) : StreamEvent := { type := .result, spec := some spec }

/-- `generateInitialSpec`: build the enhanced prompt and messages, call
the Completion Oracle once (call index 0 — it is always the run's first
completion call), clean the response and sanity-check it.  Returns the
outcome together with the number of completion calls actually made. -/
def generateInitialSpec (o : Oracles) (description : String) (mode : ConvMode)
    (currentSpec : Option String) (templateInfo : Option TemplateInfo)
    (patterns : List String) (preferences : Option UserPreferences) :
    Except String String × Nat :=
  if !o.isConfigured then (.error "AI provider is not configured", 0)
  else
    let enhancedDescription :=
      description
        ++ (match templateInfo with
            | some t => "\n\nUse the " ++ t.domain ++ " pattern as a foundation."
            | none => "")
        ++ (if patterns.length > 0 then
              "\n\nInclude these patterns: " ++ joinWith ", " patterns ++ "."
            else "")
        ++ (if (preferences.bind (·.includeAuth)) = some true then
              "\n\nInclude "
                ++ (match preferences.bind (·.authType) with
                    | some a => a.toName
                    | none => "bearer token")
                ++ " authentication."
            else "")
    let messages? : Except String (List AIMessage) :=
      match mode with
      | .modify =>
        if !truthyStr currentSpec then .error "currentSpec is required for modify mode"
        else
          .ok [⟨.system, MODIFY_SYSTEM_PROMPT⟩,
            ⟨.user, "Here is the existing OpenAPI specification:\n\n```yaml\n"
              ++ currentSpec.getD "" ++ "\n```\n\nPlease make the following changes:\n\n"
              ++ enhancedDescription⟩]
      | .create => .ok [⟨.system, SYSTEM_PROMPT⟩, ⟨.user, enhancedDescription⟩]
    match messages? with
    | .error m => (.error m, 0)
    | .ok messages =>
      match o.complete 0 messages { temperature := mkRat 7 10, maxTokens := 4000 } with
      | .error m => (.error m, 1)
      | .ok result =>
        let spec := stripWrappers result.content
        if strStartsWith spec "openapi:" then (.ok spec, 1)
        else (.error "Generated content does not appear to be a valid OpenAPI spec", 1)

/-- The numbered error list embedded in the fix prompt. -/
def fixErrorListText (errors : List ValidationError) : String :=
  joinWith "\n" (errors.enum.map fun ie =>
    toString (ie.1 + 1) ++ ". " ++ ie.2.message
      ++ (match ie.2.path with
          | some p => if p.length > 0 then " at " ++ joinWith "." p else ""
          | none => "")
      ++ (if truthyNat ie.2.line then
            " (line " ++ toString (ie.2.line.getD 0)
              ++ (if truthyNat ie.2.column then ", col " ++ toString (ie.2.column.getD 0) else "")
              ++ ")"
          else ""))

/-- `fixValidationErrors`: ask the Completion Oracle (call index `idx`)
for a corrected spec with a lower temperature, and clean the response. -/
def fixValidationErrors (o : Oracles) (idx : Nat) (spec : String)
    (errors : List ValidationError) : Except String String × Nat :=
  if !o.isConfigured then (.error "AI provider is not configured", 0)
  else
    let messages : List AIMessage :=
      [⟨.system, FIX_VALIDATION_PROMPT⟩,
        ⟨.user, "Here is the OpenAPI specification with validation errors:\n\n```yaml\n"
          ++ spec ++ "\n```\n\nValidation errors to fix:\n" ++ fixErrorListText errors
          ++ "\n\nPlease fix all these errors and return the corrected specification."⟩]
    match o.complete idx messages { temperature := mkRat 3 10, maxTokens := 4000 } with
    | .error m => (.error m, 1)
    | .ok result => (.ok (stripWrappers result.content), 1)

/-- Outcome of the validate-and-fix `while` loop. -/
inductive LoopOutcome where
  | proceed (spec : String)
  | returned
  | thrown (msg : String)
deriving DecidableEq, Repr

structure LoopResult where
  events : List StreamEvent
  outcome : LoopOutcome
  completionCalls : Nat
  validationCalls : Nat
deriving Repr

/-- The validate-and-fix `while (validationAttempt < MAX)` loop.  `fuel`
is the number of remaining loop iterations (`MAX - validationAttempt`),
which makes the recursion structural; the `fuel = 0` case is the loop
condition turning false.  `nc`/`nv` count the completion/validation
calls made so far in the run. -/
def validationFixLoop (o : Oracles) : Nat → Nat → Nat → Nat → String → LoopResult
  | 0, _, nc, nv, spec => ⟨[], .proceed spec, nc, nv⟩
  | fuel + 1, validationAttempt, nc, nv, spec =>
    if validationAttempt < MAX_VALIDATION_FIX_ATTEMPTS then
      match o.validate nv spec with
      | .error m => ⟨[], .thrown m, nc, nv + 1⟩
      | .ok validationResult =>
        if validationResult.valid then ⟨[], .proceed spec, nc, nv + 1⟩
        else
          let attempt := validationAttempt + 1
          if attempt ≥ MAX_VALIDATION_FIX_ATTEMPTS then
            ⟨[exhaustedEvent validationResult.errors], .returned, nc, nv + 1⟩
          else
            let ev := improvingEvent validationResult.errors.length attempt
            match fixValidationErrors o nc spec validationResult.errors with
            | (.error m, used) => ⟨[ev], .thrown m, nc + used, nv + 1⟩
            | (.ok fixedSpec, used) =>
              let r := validationFixLoop o fuel attempt (nc + used) (nv + 1) fixedSpec
              ⟨ev :: r.events, r.outcome, r.completionCalls, r.validationCalls⟩
    else ⟨[], .proceed spec, nc, nv⟩

/-- `request.templateName ? getTemplateByName(...) : detection?.template`. -/
def resolveTemplateInfo (request : AgenticGenerationRequest) : Option TemplateInfo :=
  if truthyStr request.templateName then getTemplateByName (request.templateName.getD "")
  else (detectTemplate request.description).map (·.template)

/-- The events of the analyze phase: the initial `analyzing` status, the
template auto-selection status when a template was resolved, and the
informational pattern question when there are decisions. -/
def analyzeEvents (request : AgenticGenerationRequest) : List StreamEvent :=
  statusEvent .analyzing "Analyzing requirements..."
    :: ((match resolveTemplateInfo request with
        | some t => [statusEvent .analyzing ("Auto-selected: " ++ t.name ++ " template")]
        | none => [])
      ++ (if (patternDecisions request).length > 0 then [questionEvent (patternDecisions request)]
          else []))

/-- One full consumption of `generateStream(request)`. -/
structure RunResult where
  events : List StreamEvent
  completionCalls : Nat
  validationCalls : Nat
deriving Repr

/-- `generateStream`: analyze, generate, validate-and-fix, optional diff,
result — with every failure caught and converted into a single terminal
`error` event. -/
def generateStream (o : Oracles) (request : AgenticGenerationRequest) : RunResult :=
  let templateInfo := resolveTemplateInfo request
  let patterns := selectedPatterns request
  let pre := analyzeEvents request
    ++ [statusEvent .generating "Generating OpenAPI specification..."]
  match generateInitialSpec o request.description (request.mode.getD .create)
      request.currentSpec templateInfo patterns request.userPreferences with
  | (.error m, nc) => ⟨pre ++ [catchErrorEvent m], nc, 0⟩
  | (.ok spec, nc) =>
    let pre2 := pre ++ [statusEvent .validating "Validating specification..."]
    let lr := validationFixLoop o MAX_VALIDATION_FIX_ATTEMPTS 0 nc 0 spec
    match lr.outcome with
    | .thrown m => ⟨pre2 ++ lr.events ++ [catchErrorEvent m], lr.completionCalls,
        lr.validationCalls⟩
    | .returned => ⟨pre2 ++ lr.events, lr.completionCalls, lr.validationCalls⟩
    | .proceed finalSpec =>
      let diffEvents :=
        if request.mode = some .modify ∧ truthyStr request.currentSpec then
          [diffEvent (generateDiff (request.currentSpec.getD "") finalSpec)
            (generateChangeSummary (generateDiff (request.currentSpec.getD "") finalSpec))]
        else []
      ⟨pre2 ++ lr.events ++ diffEvents ++ [resultEvent finalSpec], lr.completionCalls,
        lr.validationCalls⟩

end AgenticGenerationService

/-! ### Theorems: diff engine -/

/-- Running the diff walk on two identical line lists records no changes
and one context preview line per input line. -/
lemma diffScan_self (l : List String) :
    diffScan l l = ⟨[], [], [], l.map (fun s => "  " ++ s)⟩ := by
  induction l with
  | nil => simp [diffScan]
  | cons x xs ih => simp [diffScan, ih]

/-- A context preview line is not a change line. -/
lemma isChangeLine_context (s : String) : isChangeLine ("  " ++ s) = false := by
  cases s
  rfl

/-- The significant-preview filter drops a list made only of context
lines. -/
lemma significantGo_context (l : List String) :
    significantGo false (l.map (fun s => "  " ++ s)) = [] := by
  induction l with
  | nil => rfl
  | cons x xs ih =>
    cases xs with
    | nil => simp [significantGo, isChangeLine_context]
    | cons y ys =>
      simp only [List.map_cons] at ih ⊢
      simp [significantGo, isChangeLine_context, ih]

/-- Claim C6: for every text `x`, `generateDiff(x, x)` yields empty
`added`, `removed` and `modified` lists, and `generateChangeSummary` on
that diff returns the sentinel string "No changes detected". -/
theorem generateDiff_self_no_changes (x : String) :
    (generateDiff x x).added = [] ∧ (generateDiff x x).removed = [] ∧
      (generateDiff x x).modified = [] ∧
      generateChangeSummary (generateDiff x x) = "No changes detected" := by
  have h := diffScan_self (jsLines x)
  simp [generateDiff, h, generateChangeSummary, joinWith]

/-! ### Theorems: conversation manager -/

/-- A starting conversation used by the concrete manager scenarios. -/
def convBase : ConversationState :=
  ConversationManager.create "conv-1" 0
    { mode := .create, description := "A todo API", existingSpec := some "openapi: 3.1.0" }

/-- The conversation after `pause(id, 'question-answer')`. -/
def convPaused : ConversationState := applyOp convBase (.pause .questionAnswer 1)

/-- Claim C4 counterexample: immediately after
`pause(id, 'question-answer')` the conversation has
`waitingFor == 'question-answer'` but no `pendingQuestion` (pause never
sets one), so the claimed invariant is false for a state reached by
create followed by pause. -/
theorem pausedWaitingInvariant_fails : ¬ pausedWaitingInvariant convPaused := by
  decide

/-- One non-`update` manager operation preserves the weak invariant
(paused states carry a `waitingFor`, and `pendingQuestion` is never
set). -/
lemma applyOp_preserves_weakInv (c : ConversationState) (op : MgrOp)
    (hop : op.isRawUpdate = false)
    (h : (c.status = .paused → c.waitingFor ≠ none) ∧ c.pendingQuestion = none) :
    ((applyOp c op).status = .paused → (applyOp c op).waitingFor ≠ none) ∧
      (applyOp c op).pendingQuestion = none := by
  cases op with
  | update u now => simp [MgrOp.isRawUpdate] at hop
  | pause w now =>
    refine ⟨fun _ => ?_, ?_⟩ <;>
      simp [applyOp, ConversationManager.pause, ConversationManager.update, h.2]
  | resume now =>
    refine ⟨fun hs => ?_, ?_⟩ <;>
      simp_all [applyOp, ConversationManager.resume, ConversationManager.update]
  | complete fs now =>
    refine ⟨fun hs => ?_, ?_⟩ <;>
      simp_all [applyOp, ConversationManager.complete, ConversationManager.update]
  | error m now =>
    refine ⟨fun hs => ?_, ?_⟩ <;>
      simp_all [applyOp, ConversationManager.error, ConversationManager.update]

/-- The weak invariant is preserved by any sequence of non-`update`
operations. -/
lemma runOps_weakInv (c : ConversationState) (ops : List MgrOp)
    (hops : ∀ op ∈ ops, op.isRawUpdate = false)
    (h : (c.status = .paused → c.waitingFor ≠ none) ∧ c.pendingQuestion = none) :
    ((runOps c ops).status = .paused → (runOps c ops).waitingFor ≠ none) ∧
      (runOps c ops).pendingQuestion = none := by
  induction ops generalizing c with
  | nil => exact h
  | cons op rest ih =>
    simp only [runOps, List.foldl_cons]
    exact ih (applyOp c op) (fun o ho => hops o (List.mem_cons_of_mem _ ho))
      (applyOp_preserves_weakInv c op (hops op (List.mem_cons_self _ _)) h)

/-- Claim C4, amended: over the named lifecycle operations (create,
pause, resume, complete, error — excluding raw `update`, which accepts
arbitrary partial states), a paused conversation always has a non-null
`waitingFor`, and `pendingQuestion` is never set by these operations (so
`pendingQuestion` present implies `waitingFor == 'question-answer'`
vacuously).  The converses of the claimed iffs fail: pause does not set
`pendingQuestion` and resume/complete do not actually clear
`waitingFor`. -/
theorem lifecycle_weak_invariant (id : String) (now : Nat)
    (options : CreateConversationOptions) (ops : List MgrOp)
    (hops : ∀ op ∈ ops, op.isRawUpdate = false) :
    ((runOps (ConversationManager.create id now options) ops).status = .paused →
        (runOps (ConversationManager.create id now options) ops).waitingFor ≠ none) ∧
      (runOps (ConversationManager.create id now options) ops).pendingQuestion = none := by
  refine runOps_weakInv _ _ hops ⟨fun hs => ?_, rfl⟩
  simp [ConversationManager.create] at hs

/-- Witness for the amended claim C4 at a concrete scenario: create,
pause for a question, resume, complete. -/
theorem lifecycle_weak_invariant_witness :
    ((runOps (ConversationManager.create "conv-2" 0 ⟨.create, "A pets API", none⟩)
          [.pause .questionAnswer 1, .resume 2, .complete none 3]).status = .paused →
        (runOps (ConversationManager.create "conv-2" 0 ⟨.create, "A pets API", none⟩)
          [.pause .questionAnswer 1, .resume 2, .complete none 3]).waitingFor ≠ none) ∧
      (runOps (ConversationManager.create "conv-2" 0 ⟨.create, "A pets API", none⟩)
        [.pause .questionAnswer 1, .resume 2, .complete none 3]).pendingQuestion = none :=
  lifecycle_weak_invariant "conv-2" 0 ⟨.create, "A pets API", none⟩
    [.pause .questionAnswer 1, .resume 2, .complete none 3] (by decide)

/-- The conversation after `complete(id)`. -/
def convCompleted : ConversationState := applyOp convBase (.complete (some "openapi: 3.1.1") 1)

/-- Claim C5 counterexample: after `complete(id, spec)` the status is
`completed`, yet a subsequent `resume(id)` mutates the conversation and
transitions the status back to `active` — completed is not terminal. -/
theorem terminal_states_not_terminal_cex :
    convCompleted.status = .completed ∧
      (applyOp convCompleted (.resume 2)).status = .active ∧
      applyOp convCompleted (.resume 2) ≠ convCompleted := by
  decide

/-- Claim C5, amended: `complete` and `error` set the status but
terminality is not enforced — the manager has no terminal-state guard,
so a subsequent `resume` (or `pause`) on a completed or errored
conversation mutates it and sets the status back to `active` (or
`paused`). -/
theorem terminal_states_not_enforced (c : ConversationState) (now : Nat) (w : WaitingFor)
    (h : c.status = .completed ∨ c.status = .error) :
    (ConversationManager.resume c now).status = .active ∧
      (ConversationManager.pause c w now).status = .paused := by
  cases h <;>
    exact ⟨by simp [ConversationManager.resume, ConversationManager.update],
      by simp [ConversationManager.pause, ConversationManager.update]⟩

/-- Witness for the amended claim C5 at the concrete completed
conversation. -/
theorem terminal_states_not_enforced_witness :
    (ConversationManager.resume convCompleted 2).status = .active ∧
      (ConversationManager.pause convCompleted .diffApproval 2).status = .paused :=
  terminal_states_not_enforced convCompleted 2 .diffApproval (Or.inl (by decide))

/-- Claim C10 (documenting the code bug): on a paused conversation,
`complete(id)` with `finalSpec` omitted sets the status to `completed`
and leaves `currentSpec`, `messages`, `context` and `createdAt`
unchanged, and a provided `finalSpec` replaces `currentSpec` — but
`waitingFor` is NOT cleared (it remains `question-answer`), because
`complete` passes `waitingFor: undefined` and `update`'s
`!== undefined` guard skips it. -/
theorem complete_does_not_clear_waitingFor :
    (ConversationManager.complete convPaused none 2).status = .completed ∧
      (ConversationManager.complete convPaused none 2).waitingFor = some .questionAnswer ∧
      (ConversationManager.complete convPaused none 2).currentSpec = convPaused.currentSpec ∧
      (ConversationManager.complete convPaused none 2).messages = convPaused.messages ∧
      (ConversationManager.complete convPaused none 2).context = convPaused.context ∧
      (ConversationManager.complete convPaused none 2).createdAt = convPaused.createdAt ∧
      (ConversationManager.complete convPaused (some "openapi: 3.1.1") 2).currentSpec =
        some "openapi: 3.1.1" := by
  decide

/-! ### Theorems: quality assessment -/

open QualityAssessmentService

/-- Claim C7: whenever the parser oracle fails on the input, `assess`
returns the failing report: total 0, not passed, exactly one issue (in
category `standards` with severity `error`) and exactly one remediation
suggestion; no category check contributes anything. -/
theorem assess_parse_failure (parse : String → Except String OpenApiDoc) (input e : String)
    (h : parse input = .error e) :
    (assess parse input).score.total = 0 ∧ (assess parse input).passed = false ∧
      (assess parse input).issues =
        [{ category := "standards", severity := "error",
           message := "Failed to parse spec: " ++ e }] ∧
      (assess parse input).suggestions = ["Fix syntax errors in the OpenAPI specification"] := by
  simp [assess, h, parseFailureReport]

/-- Witness for claim C7 with a parser stub that always fails. -/
theorem assess_parse_failure_witness :
    (assess (fun _ => .error "boom") "not yaml").score.total = 0 ∧
      (assess (fun _ => .error "boom") "not yaml").passed = false ∧
      (assess (fun _ => .error "boom") "not yaml").issues =
        [{ category := "standards", severity := "error",
           message := "Failed to parse spec: " ++ "boom" }] ∧
      (assess (fun _ => .error "boom") "not yaml").suggestions =
        ["Fix syntax errors in the OpenAPI specification"] :=
  assess_parse_failure (fun _ => .error "boom") "not yaml" "boom" rfl

/-- Each per-operation completeness deduction is non-negative. -/
lemma opCompletenessDeduction_nonneg (op : OperationObject) :
    0 ≤ opCompletenessDeduction op := by
  unfold opCompletenessDeduction
  have h1 : (0 : ℚ) ≤ if opMissingDescription op then 5 / 2 else 0 := by split <;> norm_num
  have h2 : (0 : ℚ) ≤ if opMissingSummary op then 5 / 4 else 0 := by split <;> norm_num
  have h3 : (0 : ℚ) ≤ if !opHasErrorResponse op then 5 / 2 else 0 := by split <;> norm_num
  have h4 : (0 : ℚ) ≤ if !hasExamples op then 15 / 4 else 0 := by split <;> norm_num
  linarith

/-- The completeness category score is clamped into `[0, 40]`. -/
lemma assessCompleteness_bounds (doc : OpenApiDoc) :
    0 ≤ (assessCompleteness doc).1 ∧ (assessCompleteness doc).1 ≤ 40 := by
  unfold assessCompleteness
  refine ⟨le_max_left 0 _, max_le (by norm_num) ?_⟩
  have hsum : 0 ≤ ((docOperations doc).map fun o => opCompletenessDeduction o.2.2).sum := by
    apply List.sum_nonneg
    intro q hq
    obtain ⟨o, _, rfl⟩ := List.mem_map.mp hq
    exact opCompletenessDeduction_nonneg o.2.2
  linarith

/-- The structure category score is clamped into `[0, 30]`; when the
document has no `components` at all it is exactly `30 - 15 = 15`. -/
lemma assessStructure_bounds (doc : OpenApiDoc) :
    0 ≤ (assessStructure doc).1 ∧ (assessStructure doc).1 ≤ 30 := by
  unfold assessStructure
  refine ⟨le_max_left 0 _, max_le (by norm_num) ?_⟩
  dsimp only
  split_ifs <;> norm_num

/-- A document with no `components` section scores exactly 15 on the
structure category: the fixed 15-point deduction and nothing else. -/
lemma assessStructure_no_components (doc : OpenApiDoc) (h : doc.components = none) :
    (assessStructure doc).1 = 15 := by
  unfold assessStructure
  have h1 : componentsEmpty doc = true := by simp [componentsEmpty, h]
  have h2 : componentsHasSchemas doc = false := by simp [componentsHasSchemas, h]
  simp only [h1, h2]
  norm_num [sup_eq_max, max_def]

/-- The standards category score is clamped into `[0, 20]`. -/
lemma assessStandards_bounds (doc : OpenApiDoc) :
    0 ≤ (assessStandards doc).1 ∧ (assessStandards doc).1 ≤ 20 := by
  unfold assessStandards
  refine ⟨le_max_left 0 _, max_le (by norm_num) ?_⟩
  dsimp only
  have hmin : (0 : ℚ) ≤ min 10 (((checkNamingConventions doc).length : ℚ) * 2) :=
    le_min (by norm_num) (by positivity)
  split_ifs <;> dsimp only <;> linarith [hmin]

/-- The best-practices category score is clamped into `[0, 10]`. -/
lemma assessBestPractices_bounds (doc : OpenApiDoc) :
    0 ≤ (assessBestPractices doc).1 ∧ (assessBestPractices doc).1 ≤ 10 := by
  unfold assessBestPractices
  refine ⟨le_max_left 0 _, max_le (by norm_num) ?_⟩
  dsimp only
  split <;> split <;> norm_num

/-- Claim C8: `assess` is a deterministic function of its input (it is a
pure Lean function of the parser oracle and text); for every input the
total is within `[0, 100]` with `passed` exactly when the total reaches
85, every category sub-score is clamped at a non-negative floor (and
below its weight), and any parseable document lacking a `components`
section loses exactly the fixed structure deduction: its structure
sub-score is exactly `30 - 15 = 15`. -/
theorem assess_deterministic_bounds (parse : String → Except String OpenApiDoc)
    (input : String) :
    (0 ≤ (assess parse input).score.total ∧ (assess parse input).score.total ≤ 100) ∧
      ((assess parse input).passed = true ↔ 85 ≤ (assess parse input).score.total) ∧
      (0 ≤ (assess parse input).score.completeness ∧
        (assess parse input).score.completeness ≤ 40) ∧
      (0 ≤ (assess parse input).score.«structure» ∧
        (assess parse input).score.«structure» ≤ 30) ∧
      (0 ≤ (assess parse input).score.standards ∧
        (assess parse input).score.standards ≤ 20) ∧
      (0 ≤ (assess parse input).score.bestPractices ∧
        (assess parse input).score.bestPractices ≤ 10) ∧
      (∀ doc, parse input = .ok doc → doc.components = none →
        (assess parse input).score.«structure» = 15) := by
  cases hp : parse input with
  | error e =>
    simp [assess, hp, parseFailureReport]
  | ok doc =>
    have hc := assessCompleteness_bounds doc
    have hs := assessStructure_bounds doc
    have hst := assessStandards_bounds doc
    have hbp := assessBestPractices_bounds doc
    have hsum0 : 0 ≤ (assessCompleteness doc).1 + (assessStructure doc).1 +
        (assessStandards doc).1 + (assessBestPractices doc).1 := by linarith [hc.1, hs.1, hst.1, hbp.1]
    have hsum100 : (assessCompleteness doc).1 + (assessStructure doc).1 +
        (assessStandards doc).1 + (assessBestPractices doc).1 ≤ 100 := by
      linarith [hc.2, hs.2, hst.2, hbp.2]
    have htot0 : 0 ≤ jsRound ((assessCompleteness doc).1 + (assessStructure doc).1 +
        (assessStandards doc).1 + (assessBestPractices doc).1) := by
      unfold jsRound
      exact Int.le_floor.mpr (by push_cast; linarith)
    have htot100 : jsRound ((assessCompleteness doc).1 + (assessStructure doc).1 +
        (assessStandards doc).1 + (assessBestPractices doc).1) ≤ 100 := by
      unfold jsRound
      have : ⌊(assessCompleteness doc).1 + (assessStructure doc).1 +
          (assessStandards doc).1 + (assessBestPractices doc).1 + 1 / 2⌋ < 101 := by
        rw [Int.floor_lt]
        push_cast
        linarith
      omega
    refine ⟨?_, ?_, ?_, ?_, ?_, ?_, ?_⟩
    · simpa [assess, hp] using ⟨htot0, htot100⟩
    · simp [assess, hp, PASSING_SCORE, ge_iff_le, decide_eq_true_iff]
    · simpa [assess, hp] using hc
    · simpa [assess, hp] using hs
    · simpa [assess, hp] using hst
    · simpa [assess, hp] using hbp
    · intro doc2 hdoc2 hnone
      have hd : doc = doc2 := Except.ok.inj hdoc2
      subst hd
      simpa [assess, hp] using assessStructure_no_components doc hnone

/-! ### Theorems: generation orchestrator -/

open AgenticGenerationService

/-- Every event of the analyze phase is a `status` or `question` event. -/
lemma analyzeEvents_types (request : AgenticGenerationRequest) (e : StreamEvent)
    (he : e ∈ analyzeEvents request) : e.type = .status ∨ e.type = .question := by
  unfold analyzeEvents at he
  rcases List.mem_cons.mp he with rfl | he
  · exact Or.inl rfl
  rcases List.mem_append.mp he with he | he
  · cases h : resolveTemplateInfo request <;> rw [h] at he <;> simp at he
    subst he
    exact Or.inl rfl
  · by_cases hd : (patternDecisions request).length > 0
    · rw [if_pos hd] at he
      simp at he
      subst he
      exact Or.inr rfl
    · rw [if_neg hd] at he
      simp at he

/-- Shape of the validate-and-fix loop result: when the outcome is
`returned` the events are `status` events followed by exactly one
exhausted `error` event; for any other outcome every emitted event is a
`status` event. -/
lemma validationFixLoop_shape (o : Oracles) :
    ∀ (fuel validationAttempt nc nv : Nat) (spec : String),
      ((validationFixLoop o fuel validationAttempt nc nv spec).outcome = .returned →
          ∃ pre errs, (validationFixLoop o fuel validationAttempt nc nv spec).events
              = pre ++ [exhaustedEvent errs] ∧ ∀ e ∈ pre, e.type = .status) ∧
        ((validationFixLoop o fuel validationAttempt nc nv spec).outcome ≠ .returned →
          ∀ e ∈ (validationFixLoop o fuel validationAttempt nc nv spec).events,
            e.type = .status) := by
  intro fuel
  induction fuel with
  | zero =>
    intro attempt nc nv spec
    constructor
    · intro h
      simp [validationFixLoop] at h
    · intro _
      simp [validationFixLoop]
  | succ fuel ih =>
    intro attempt nc nv spec
    by_cases hlt : attempt < MAX_VALIDATION_FIX_ATTEMPTS
    · cases hv : o.validate nv spec with
      | error m =>
        constructor
        · intro h
          simp [validationFixLoop, hlt, hv] at h
        · intro _
          simp [validationFixLoop, hlt, hv]
      | ok vr =>
        by_cases hvalid : vr.valid = true
        · constructor
          · intro h
            simp [validationFixLoop, hlt, hv, hvalid] at h
          · intro _
            simp [validationFixLoop, hlt, hv, hvalid]
        · by_cases hge : attempt + 1 ≥ MAX_VALIDATION_FIX_ATTEMPTS
          · constructor
            · intro _
              exact ⟨[], vr.errors, by simp [validationFixLoop, hlt, hv, hvalid, hge], by simp⟩
            · intro h
              exact absurd (by simp [validationFixLoop, hlt, hv, hvalid, hge]) h
          · cases hf : fixValidationErrors o nc spec vr.errors with
            | mk res used =>
              cases res with
              | error m =>
                constructor
                · intro h
                  simp [validationFixLoop, hlt, hv, hvalid, hge, hf] at h
                · intro _ e he
                  simp [validationFixLoop, hlt, hv, hvalid, hge, hf] at he
                  subst he
                  rfl
              | ok fixedSpec =>
                have hrec := ih (attempt + 1) (nc + used) (nv + 1) fixedSpec
                constructor
                · intro h
                  have hretRec : (validationFixLoop o fuel (attempt + 1) (nc + used) (nv + 1)
                      fixedSpec).outcome = .returned := by
                    simpa [validationFixLoop, hlt, hv, hvalid, hge, hf] using h
                  obtain ⟨pre, errs, hev, hpre⟩ := hrec.1 hretRec
                  refine ⟨improvingEvent vr.errors.length (attempt + 1) :: pre, errs,
                    by simp [validationFixLoop, hlt, hv, hvalid, hge, hf, hev], ?_⟩
                  intro e he
                  rcases List.mem_cons.mp he with rfl | he
                  · rfl
                  · exact hpre e he
                · intro h e he
                  have hretRec : (validationFixLoop o fuel (attempt + 1) (nc + used) (nv + 1)
                      fixedSpec).outcome ≠ .returned := by
                    intro hcon
                    exact h (by simpa [validationFixLoop, hlt, hv, hvalid, hge, hf] using hcon)
                  simp only [validationFixLoop, hlt, if_true, hv, hvalid, hge, hf] at he
                  simp at he
                  rcases he with rfl | he
                  · rfl
                  · exact hrec.2 hretRec e he
    · constructor
      · intro h
        simp [validationFixLoop, hlt] at h
      · intro _
        simp [validationFixLoop, hlt]

/-- Every event of the validate-and-fix loop is a `status` or `error`
event. -/
lemma validationFixLoop_event_types (o : Oracles) (fuel validationAttempt nc nv : Nat)
    (spec : String) (e : StreamEvent)
    (he : e ∈ (validationFixLoop o fuel validationAttempt nc nv spec).events) :
    e.type = .status ∨ e.type = .error := by
  have hs := validationFixLoop_shape o fuel validationAttempt nc nv spec
  by_cases hret : (validationFixLoop o fuel validationAttempt nc nv spec).outcome = .returned
  · obtain ⟨pre, errs, hev, hpre⟩ := hs.1 hret
    rw [hev] at he
    rcases List.mem_append.mp he with he | he
    · exact Or.inl (hpre e he)
    · simp at he
      subst he
      exact Or.inr rfl
  · exact Or.inl (hs.2 hret e he)

/-- The prefix of every run: the analyze events plus the `generating`
status event contain only `status` and `question` events. -/
lemma generatePrefix_types (request : AgenticGenerationRequest) (e : StreamEvent)
    (he : e ∈ analyzeEvents request
      ++ [statusEvent .generating "Generating OpenAPI specification..."]) :
    e.type = .status ∨ e.type = .question := by
  rcases List.mem_append.mp he with he | he
  · exact analyzeEvents_types request e he
  · simp at he
    subst he
    exact Or.inl rfl

/-- Events of a run whose initial generation fails. -/
lemma generateStream_events_error (o : Oracles) (request : AgenticGenerationRequest)
    (m : String) (nc : Nat)
    (hg : generateInitialSpec o request.description (request.mode.getD .create)
      request.currentSpec (resolveTemplateInfo request) (selectedPatterns request)
      request.userPreferences = (.error m, nc)) :
    (generateStream o request).events
      = (analyzeEvents request
          ++ [statusEvent .generating "Generating OpenAPI specification..."])
        ++ [catchErrorEvent m] := by
  simp only [generateStream, hg]

/-- Events of a run whose repair loop throws. -/
lemma generateStream_events_thrown (o : Oracles) (request : AgenticGenerationRequest)
    (spec : String) (nc : Nat) (m : String)
    (hg : generateInitialSpec o request.description (request.mode.getD .create)
      request.currentSpec (resolveTemplateInfo request) (selectedPatterns request)
      request.userPreferences = (.ok spec, nc))
    (ho : (validationFixLoop o MAX_VALIDATION_FIX_ATTEMPTS 0 nc 0 spec).outcome = .thrown m) :
    (generateStream o request).events
      = ((analyzeEvents request
            ++ [statusEvent .generating "Generating OpenAPI specification..."])
          ++ [statusEvent .validating "Validating specification..."]
          ++ (validationFixLoop o MAX_VALIDATION_FIX_ATTEMPTS 0 nc 0 spec).events)
        ++ [catchErrorEvent m] := by
  simp only [generateStream, hg, ho]

/-- Events of a run whose repair loop exhausts its bound. -/
lemma generateStream_events_returned (o : Oracles) (request : AgenticGenerationRequest)
    (spec : String) (nc : Nat)
    (hg : generateInitialSpec o request.description (request.mode.getD .create)
      request.currentSpec (resolveTemplateInfo request) (selectedPatterns request)
      request.userPreferences = (.ok spec, nc))
    (ho : (validationFixLoop o MAX_VALIDATION_FIX_ATTEMPTS 0 nc 0 spec).outcome = .returned) :
    (generateStream o request).events
      = (analyzeEvents request
          ++ [statusEvent .generating "Generating OpenAPI specification..."])
        ++ [statusEvent .validating "Validating specification..."]
        ++ (validationFixLoop o MAX_VALIDATION_FIX_ATTEMPTS 0 nc 0 spec).events := by
  simp only [generateStream, hg, ho]

/-- Events of a successful run. -/
lemma generateStream_events_proceed (o : Oracles) (request : AgenticGenerationRequest)
    (spec : String) (nc : Nat) (finalSpec : String)
    (hg : generateInitialSpec o request.description (request.mode.getD .create)
      request.currentSpec (resolveTemplateInfo request) (selectedPatterns request)
      request.userPreferences = (.ok spec, nc))
    (ho : (validationFixLoop o MAX_VALIDATION_FIX_ATTEMPTS 0 nc 0 spec).outcome
      = .proceed finalSpec) :
    (generateStream o request).events
      = ((analyzeEvents request
            ++ [statusEvent .generating "Generating OpenAPI specification..."])
          ++ [statusEvent .validating "Validating specification..."]
          ++ (validationFixLoop o MAX_VALIDATION_FIX_ATTEMPTS 0 nc 0 spec).events
          ++ (if request.mode = some .modify ∧ truthyStr request.currentSpec then
                [diffEvent (generateDiff (request.currentSpec.getD "") finalSpec)
                  (generateChangeSummary (generateDiff (request.currentSpec.getD "") finalSpec))]
              else []))
        ++ [resultEvent finalSpec] := by
  simp only [generateStream, hg, ho]

/-- Completion-call count of a run whose repair loop exhausts its
bound. -/
lemma generateStream_calls_returned (o : Oracles) (request : AgenticGenerationRequest)
    (spec : String) (nc : Nat)
    (hg : generateInitialSpec o request.description (request.mode.getD .create)
      request.currentSpec (resolveTemplateInfo request) (selectedPatterns request)
      request.userPreferences = (.ok spec, nc))
    (ho : (validationFixLoop o MAX_VALIDATION_FIX_ATTEMPTS 0 nc 0 spec).outcome = .returned) :
    (generateStream o request).completionCalls
      = (validationFixLoop o MAX_VALIDATION_FIX_ATTEMPTS 0 nc 0 spec).completionCalls := by
  simp only [generateStream, hg, ho]

/-- Claim C3: every invocation of `generateStream` yields a finite event
list (finiteness is by construction: the result is a `List`) whose last
element is the single terminal `result` or `error` event: every earlier
event is neither a `result` nor an `error`, so no event of any kind
follows the terminal one, and any stage failure surfaces only as that
one terminal `error` event instead of escaping the stream. -/
theorem generateStream_single_terminal (o : Oracles) (request : AgenticGenerationRequest) :
    ∃ body last, (generateStream o request).events = body ++ [last] ∧
      (last.type = .result ∨ last.type = .error) ∧
      ∀ e ∈ body, e.type ≠ .result ∧ e.type ≠ .error := by
  have hnotTerminal : ∀ e : StreamEvent, e.type = .status ∨ e.type = .question →
      e.type ≠ .result ∧ e.type ≠ .error := by
    rintro e (h | h) <;> rw [h] <;> exact ⟨by simp, by simp⟩
  have hpre2 : ∀ e ∈ (analyzeEvents request
      ++ [statusEvent .generating "Generating OpenAPI specification..."])
      ++ [statusEvent .validating "Validating specification..."],
      e.type ≠ .result ∧ e.type ≠ .error := by
    intro e he
    rcases List.mem_append.mp he with he | he
    · exact hnotTerminal e (generatePrefix_types request e he)
    · simp at he
      subst he
      exact hnotTerminal _ (Or.inl rfl)
  rcases hg : generateInitialSpec o request.description (request.mode.getD .create)
      request.currentSpec (resolveTemplateInfo request) (selectedPatterns request)
      request.userPreferences with ⟨res, nc⟩
  cases res with
  | error m =>
    refine ⟨_, catchErrorEvent m, generateStream_events_error o request m nc hg,
      Or.inr rfl, ?_⟩
    intro e he
    exact hnotTerminal e (generatePrefix_types request e he)
  | ok spec =>
    have hshape := validationFixLoop_shape o MAX_VALIDATION_FIX_ATTEMPTS 0 nc 0 spec
    cases ho : (validationFixLoop o MAX_VALIDATION_FIX_ATTEMPTS 0 nc 0 spec).outcome with
    | proceed finalSpec =>
      have hloop := hshape.2 (by simp [ho])
      refine ⟨_, resultEvent finalSpec,
        generateStream_events_proceed o request spec nc finalSpec hg ho, Or.inl rfl, ?_⟩
      intro e he
      rcases List.mem_append.mp he with he | he
      · rcases List.mem_append.mp he with he | he
        · exact hpre2 e he
        · have := hloop e he
          rw [this]
          exact ⟨by simp, by simp⟩
      · by_cases hdm : request.mode = some ConvMode.modify ∧ truthyStr request.currentSpec
        · rw [if_pos hdm] at he
          simp at he
          subst he
          exact ⟨by simp [diffEvent], by simp [diffEvent]⟩
        · rw [if_neg hdm] at he
          simp at he
    | returned =>
      obtain ⟨pre, errs, hev, hpreEv⟩ := hshape.1 ho
      have hevents := generateStream_events_returned o request spec nc hg ho
      rw [hev, ← List.append_assoc] at hevents
      refine ⟨_, exhaustedEvent errs, hevents, Or.inr rfl, ?_⟩
      intro e he
      rcases List.mem_append.mp he with he | he
      · exact hpre2 e he
      · have := hpreEv e he
        rw [this]
        exact ⟨by simp, by simp⟩
    | thrown m =>
      have hloop := hshape.2 (by simp [ho])
      refine ⟨_, catchErrorEvent m, generateStream_events_thrown o request spec nc m hg ho,
        Or.inr rfl, ?_⟩
      intro e he
      rcases List.mem_append.mp he with he | he
      · exact hpre2 e he
      · have := hloop e he
        rw [this]
        exact ⟨by simp, by simp⟩

/-- When the provider is configured and every completion call succeeds,
`fixValidationErrors` returns a cleaned spec and makes exactly one
completion call. -/
lemma fixValidationErrors_ok (o : Oracles) (idx : Nat) (spec : String)
    (errors : List ValidationError) (hconf : o.isConfigured = true)
    (hcomplete : ∀ n msgs opts, ∃ r, o.complete n msgs opts = .ok r) :
    ∃ s, fixValidationErrors o idx spec errors = (.ok s, 1) := by
  obtain ⟨r, hr⟩ := hcomplete idx
    [⟨.system, FIX_VALIDATION_PROMPT⟩,
      ⟨.user, "Here is the OpenAPI specification with validation errors:\n\n```yaml\n"
        ++ spec ++ "\n```\n\nValidation errors to fix:\n" ++ fixErrorListText errors
        ++ "\n\nPlease fix all these errors and return the corrected specification."⟩]
    { temperature := mkRat 3 10, maxTokens := 4000 }
  exact ⟨stripWrappers r.content, by simp [fixValidationErrors, hconf, hr]⟩

/-- With a Validation Oracle that always reports exactly one error and a
Completion Oracle that always answers, the validate-and-fix loop runs
its full bound: two `improving` events and two fix calls, then the
exhausted `error` event carrying the last reported error list. -/
lemma validationFixLoop_exhausts (o : Oracles) (nc nv : Nat) (spec : String)
    (hconf : o.isConfigured = true)
    (hcomplete : ∀ n msgs opts, ∃ r, o.complete n msgs opts = .ok r)
    (hvalidate : ∀ n s, ∃ e, o.validate n s = .ok { valid := false, errors := [e] }) :
    ∃ e : ValidationError,
      validationFixLoop o MAX_VALIDATION_FIX_ATTEMPTS 0 nc nv spec
        = ⟨[improvingEvent 1 1, improvingEvent 1 2, exhaustedEvent [e]],
            .returned, nc + 2, nv + 3⟩ := by
  obtain ⟨e1, hv1⟩ := hvalidate nv spec
  obtain ⟨s1, hf1⟩ := fixValidationErrors_ok o nc spec [e1] hconf hcomplete
  obtain ⟨e2, hv2⟩ := hvalidate (nv + 1) s1
  obtain ⟨s2, hf2⟩ := fixValidationErrors_ok o (nc + 1) s1 [e2] hconf hcomplete
  obtain ⟨e3, hv3⟩ := hvalidate (nv + 2) s2
  refine ⟨e3, ?_⟩
  simp only [MAX_VALIDATION_FIX_ATTEMPTS, validationFixLoop, hv1, hv2, hv3, hf1, hf2]
  norm_num

/-- When the provider is configured, modify mode has a spec, and the
first completion answer is a well-formed artifact, the initial
generation succeeds with exactly one completion call. -/
lemma generateInitialSpec_ok (o : Oracles) (description : String) (mode : ConvMode)
    (currentSpec : Option String) (templateInfo : Option TemplateInfo)
    (patterns : List String) (preferences : Option UserPreferences)
    (hconf : o.isConfigured = true)
    (hmode : mode = .modify → truthyStr currentSpec = true)
    (hcomplete : ∀ n msgs opts, ∃ r, o.complete n msgs opts = .ok r)
    (hwf : ∀ msgs opts r, o.complete 0 msgs opts = .ok r →
      strStartsWith (stripWrappers r.content) "openapi:" = true) :
    ∃ s, generateInitialSpec o description mode currentSpec templateInfo patterns preferences
      = (.ok s, 1) := by
  cases mode with
  | create =>
    simp only [generateInitialSpec, hconf, Bool.not_true, Bool.false_eq_true, if_false]
    split
    · rename_i m heq
      obtain ⟨r, hr⟩ := hcomplete 0 _ _
      rw [hr] at heq
      simp at heq
    · rename_i r heq
      rw [hwf _ _ _ heq]
      exact ⟨stripWrappers r.content, by simp⟩
  | modify =>
    have ht := hmode rfl
    simp only [generateInitialSpec, hconf, Bool.not_true, Bool.false_eq_true, if_false, ht]
    split
    · rename_i m heq
      obtain ⟨r, hr⟩ := hcomplete 0 _ _
      rw [hr] at heq
      simp at heq
    · rename_i r heq
      rw [hwf _ _ _ heq]
      exact ⟨stripWrappers r.content, by simp⟩

/-- Claim C1: for every run with a Validation Oracle stub that always
reports exactly one error (and a Completion Oracle that answers, with a
well-formed first artifact so the repair loop is actually entered), the
run calls the Completion Oracle at most 3 times in total, then
terminates with a single `error` event — the exhausted-validation event,
which carries the full remaining validation error list with location
when available (see `exhaustedEvent`) — and emits no event after it and
no `result` event at all: the run is never retried beyond the bound. -/
theorem repair_loop_exhaustion (o : Oracles) (request : AgenticGenerationRequest)
    (hconf : o.isConfigured = true)
    (hmode : request.mode = some .modify → truthyStr request.currentSpec = true)
    (hcomplete : ∀ n msgs opts, ∃ r, o.complete n msgs opts = .ok r)
    (hwf : ∀ msgs opts r, o.complete 0 msgs opts = .ok r →
      strStartsWith (stripWrappers r.content) "openapi:" = true)
    (hvalidate : ∀ n s, ∃ e, o.validate n s = .ok { valid := false, errors := [e] }) :
    (generateStream o request).completionCalls ≤ 3 ∧
      (∃ e, (generateStream o request).events.getLast? = some (exhaustedEvent [e])) ∧
      ((generateStream o request).events.countP fun ev => decide (ev.type = .error)) = 1 ∧
      ((generateStream o request).events.countP fun ev => decide (ev.type = .result)) = 0 := by
  have hmode' : request.mode.getD .create = .modify → truthyStr request.currentSpec = true := by
    intro hm
    cases hmo : request.mode with
    | none => rw [hmo] at hm; simp at hm
    | some m => rw [hmo] at hm; simp at hm; exact hmode (by rw [hmo, hm])
  obtain ⟨spec, hg⟩ := generateInitialSpec_ok o request.description (request.mode.getD .create)
    request.currentSpec (resolveTemplateInfo request) (selectedPatterns request)
    request.userPreferences hconf hmode' hcomplete hwf
  obtain ⟨e3, hloopEq⟩ := validationFixLoop_exhausts o 1 0 spec hconf hcomplete hvalidate
  have ho : (validationFixLoop o MAX_VALIDATION_FIX_ATTEMPTS 0 1 0 spec).outcome
      = .returned := by rw [hloopEq]
  have hev := generateStream_events_returned o request spec 1 hg ho
  have hcalls := generateStream_calls_returned o request spec 1 hg ho
  simp only [hloopEq] at hev hcalls
  have hassoc : (generateStream o request).events
      = (((analyzeEvents request
            ++ [statusEvent .generating "Generating OpenAPI specification..."])
          ++ [statusEvent .validating "Validating specification..."])
          ++ [improvingEvent 1 1, improvingEvent 1 2])
        ++ [exhaustedEvent [e3]] := by
    rw [hev]
    simp
  have hprefix : ∀ e ∈ ((analyzeEvents request
      ++ [statusEvent .generating "Generating OpenAPI specification..."])
      ++ [statusEvent .validating "Validating specification..."])
      ++ [improvingEvent 1 1, improvingEvent 1 2],
      e.type = .status ∨ e.type = .question := by
    intro e he
    rcases List.mem_append.mp he with he | he
    · rcases List.mem_append.mp he with he | he
      · exact generatePrefix_types request e he
      · simp at he
        subst he
        exact Or.inl rfl
    · simp at he
      rcases he with rfl | rfl <;> exact Or.inl rfl
  refine ⟨?_, ⟨e3, ?_⟩, ?_, ?_⟩
  · rw [hcalls]
  · rw [hassoc, List.getLast?_concat]
  · rw [hassoc, List.countP_append]
    have h0 : (((analyzeEvents request
        ++ [statusEvent .generating "Generating OpenAPI specification..."])
        ++ [statusEvent .validating "Validating specification..."])
        ++ [improvingEvent 1 1, improvingEvent 1 2]).countP
          (fun ev => decide (ev.type = .error)) = 0 := by
      rw [List.countP_eq_zero]
      intro a ha
      rcases hprefix a ha with h | h <;> simp [h]
    rw [h0]
    simp [exhaustedEvent]
  · rw [hassoc, List.countP_append]
    have h0 : (((analyzeEvents request
        ++ [statusEvent .generating "Generating OpenAPI specification..."])
        ++ [statusEvent .validating "Validating specification..."])
        ++ [improvingEvent 1 1, improvingEvent 1 2]).countP
          (fun ev => decide (ev.type = .result)) = 0 := by
      rw [List.countP_eq_zero]
      intro a ha
      rcases hprefix a ha with h | h <;> simp [h]
    rw [h0]
    simp [exhaustedEvent]

/-- The request used by the concrete end-to-end scenarios. -/
def todoRequest : AgenticGenerationRequest :=
  { description := "A todo API with list and create endpoints", mode := some .create }

/-- The fixed valid minimal artifact returned by the Completion Oracle
stub. -/
def stubSpecContent : String :=
  "openapi: 3.1.0\ninfo:\n  title: Todo API\n  version: 1.0.0\npaths:\n  /todos:\n    get:\n      summary: List todos"

/-- Completion Oracle stub returning the fixed artifact and Validation
Oracle stub reporting valid. -/
def stubOracles : Oracles :=
  { isConfigured := true
    complete := fun _ _ _ => .ok { content := stubSpecContent, model := "mock" }
    validate := fun _ _ => .ok { valid := true, errors := [] } }

/-- The fixed error reported by the always-invalid validator stub. -/
def stubValidationError : ValidationError := { message := "missing info", line := some 2 }

/-- Oracles whose validator always reports exactly one fixed error. -/
def exhaustOracles : Oracles :=
  { isConfigured := true
    complete := fun _ _ _ => .ok { content := stubSpecContent, model := "mock" }
    validate := fun _ _ => .ok { valid := false, errors := [stubValidationError] } }

/-- Witness for claim C1 at the concrete always-one-error stub. -/
theorem repair_loop_exhaustion_witness :
    (generateStream exhaustOracles todoRequest).completionCalls ≤ 3 ∧
      (generateStream exhaustOracles todoRequest).events.getLast?
        = some (exhaustedEvent [stubValidationError]) ∧
      ((generateStream exhaustOracles todoRequest).events.countP
        fun ev => decide (ev.type = .error)) = 1 ∧
      ((generateStream exhaustOracles todoRequest).events.countP
        fun ev => decide (ev.type = .result)) = 0 := by
  have h := repair_loop_exhaustion exhaustOracles todoRequest rfl
    (fun hm => absurd hm (by decide))
    (fun n msgs opts => ⟨{ content := stubSpecContent, model := "mock" }, rfl⟩)
    (fun msgs opts r hr => by
      have hr2 : ({ content := stubSpecContent, model := "mock" } : AICompletionResult)
          = r := Except.ok.inj hr
      subst hr2
      decide)
    (fun n s => ⟨stubValidationError, rfl⟩)
  exact ⟨h.1, by decide, h.2.2.1, h.2.2.2⟩

/-- Every run's events decompose as the analyze events, the `generating`
status event, and a tail containing no `question` event. -/
lemma generateStream_decomp (o : Oracles) (request : AgenticGenerationRequest) :
    ∃ tail, (generateStream o request).events
        = analyzeEvents request
          ++ statusEvent .generating "Generating OpenAPI specification..." :: tail ∧
      ∀ e ∈ tail, e.type = .status ∨ e.type = .diff ∨ e.type = .result ∨ e.type = .error := by
  rcases hg : generateInitialSpec o request.description (request.mode.getD .create)
      request.currentSpec (resolveTemplateInfo request) (selectedPatterns request)
      request.userPreferences with ⟨res, nc⟩
  cases res with
  | error m =>
    refine ⟨[catchErrorEvent m], ?_, ?_⟩
    · rw [generateStream_events_error o request m nc hg]
      simp
    · intro e he
      simp at he
      subst he
      exact Or.inr (Or.inr (Or.inr rfl))
  | ok spec =>
    cases ho : (validationFixLoop o MAX_VALIDATION_FIX_ATTEMPTS 0 nc 0 spec).outcome with
    | proceed finalSpec =>
      refine ⟨statusEvent .validating "Validating specification..."
          :: ((validationFixLoop o MAX_VALIDATION_FIX_ATTEMPTS 0 nc 0 spec).events
            ++ (if request.mode = some .modify ∧ truthyStr request.currentSpec then
                  [diffEvent (generateDiff (request.currentSpec.getD "") finalSpec)
                    (generateChangeSummary
                      (generateDiff (request.currentSpec.getD "") finalSpec))]
                else [])
            ++ [resultEvent finalSpec]), ?_, ?_⟩
      · rw [generateStream_events_proceed o request spec nc finalSpec hg ho]
        simp
      · intro e he
        rcases List.mem_cons.mp he with rfl | he
        · exact Or.inl rfl
        rcases List.mem_append.mp he with he | he
        rcases List.mem_append.mp he with he | he
        · rcases validationFixLoop_event_types o MAX_VALIDATION_FIX_ATTEMPTS 0 nc 0 spec e he
            with h | h
          · exact Or.inl h
          · exact Or.inr (Or.inr (Or.inr h))
        · by_cases hdm : request.mode = some ConvMode.modify ∧ truthyStr request.currentSpec
          · rw [if_pos hdm] at he
            simp at he
            subst he
            exact Or.inr (Or.inl rfl)
          · rw [if_neg hdm] at he
            simp at he
        · simp at he
          subst he
          exact Or.inr (Or.inr (Or.inl rfl))
    | returned =>
      refine ⟨statusEvent .validating "Validating specification..."
          :: (validationFixLoop o MAX_VALIDATION_FIX_ATTEMPTS 0 nc 0 spec).events, ?_, ?_⟩
      · rw [generateStream_events_returned o request spec nc hg ho]
        simp
      · intro e he
        rcases List.mem_cons.mp he with rfl | he
        · exact Or.inl rfl
        · rcases validationFixLoop_event_types o MAX_VALIDATION_FIX_ATTEMPTS 0 nc 0 spec e he
            with h | h
          · exact Or.inl h
          · exact Or.inr (Or.inr (Or.inr h))
    | thrown m =>
      refine ⟨statusEvent .validating "Validating specification..."
          :: ((validationFixLoop o MAX_VALIDATION_FIX_ATTEMPTS 0 nc 0 spec).events
            ++ [catchErrorEvent m]), ?_, ?_⟩
      · rw [generateStream_events_thrown o request spec nc m hg ho]
        simp
      · intro e he
        rcases List.mem_cons.mp he with rfl | he
        · exact Or.inl rfl
        rcases List.mem_append.mp he with he | he
        · rcases validationFixLoop_event_types o MAX_VALIDATION_FIX_ATTEMPTS 0 nc 0 spec e he
            with h | h
          · exact Or.inl h
          · exact Or.inr (Or.inr (Or.inr h))
        · simp at he
          subst he
          exact Or.inr (Or.inr (Or.inr rfl))

/-- Claim C9: whenever `userPreferences.includeErrorHandling` is not
explicitly false, the analyze stage adds the `error-handling` pattern to
the decision list, so the list is non-empty and the run emits exactly
one `question` event — the `patterns-info` informational question —
immediately before the `generating` status event. -/
theorem error_handling_question_event (o : Oracles) (request : AgenticGenerationRequest)
    (h : (request.userPreferences.bind fun p => p.includeErrorHandling) ≠ some false) :
    "error-handling" ∈ (patternDecisions request).map (·.name) ∧
      (∃ pre post, (generateStream o request).events
          = pre ++ questionEvent (patternDecisions request)
            :: statusEvent .generating "Generating OpenAPI specification..." :: post) ∧
      ((generateStream o request).events.countP fun e => decide (e.type = .question)) = 1 ∧
      ((questionEvent (patternDecisions request)).question.map fun q => q.id)
        = some "patterns-info" := by
  have hmem : "error-handling" ∈ (patternDecisions request).map (·.name) := by
    unfold patternDecisions
    rw [if_pos h]
    simp
  have hne : patternDecisions request ≠ [] := by
    intro h0
    rw [h0] at hmem
    simp at hmem
  have hlen : (patternDecisions request).length > 0 := List.length_pos.mpr hne
  have hanalyze : analyzeEvents request
      = statusEvent .analyzing "Analyzing requirements..."
        :: ((match resolveTemplateInfo request with
            | some t => [statusEvent .analyzing ("Auto-selected: " ++ t.name ++ " template")]
            | none => [])
          ++ [questionEvent (patternDecisions request)]) := by
    unfold analyzeEvents
    rw [if_pos hlen]
  obtain ⟨tail, hev, htail⟩ := generateStream_decomp o request
  have htmpl0 : ∀ e ∈ (match resolveTemplateInfo request with
      | some t => [statusEvent .analyzing ("Auto-selected: " ++ t.name ++ " template")]
      | none => ([] : List StreamEvent)), e.type = .status := by
    intro e he
    cases hres : resolveTemplateInfo request <;> rw [hres] at he <;> simp at he
    subst he
    rfl
  refine ⟨hmem, ?_, ?_, rfl⟩
  · refine ⟨statusEvent .analyzing "Analyzing requirements..."
      :: (match resolveTemplateInfo request with
          | some t => [statusEvent .analyzing ("Auto-selected: " ++ t.name ++ " template")]
          | none => []), tail, ?_⟩
    rw [hev, hanalyze]
    simp
  · rw [hev, List.countP_append, hanalyze]
    have htail0 : tail.countP (fun e => decide (e.type = .question)) = 0 := by
      rw [List.countP_eq_zero]
      intro a ha
      rcases htail a ha with h1 | h1 | h1 | h1 <;> simp [h1]
    have htmplCount : (((match resolveTemplateInfo request with
        | some t => [statusEvent .analyzing ("Auto-selected: " ++ t.name ++ " template")]
        | none => []) : List StreamEvent)).countP
          (fun e => decide (e.type = .question)) = 0 := by
      rw [List.countP_eq_zero]
      intro a ha
      rw [htmpl0 a ha]
      simp
    have hgen0 : List.countP (fun e => decide (e.type = StreamEventType.question))
        (statusEvent .generating "Generating OpenAPI specification..." :: tail) = 0 := by
      rw [List.countP_cons_of_neg]
      · exact htail0
      · simp [statusEvent]
    have hana : List.countP (fun e => decide (e.type = StreamEventType.question))
        (statusEvent .analyzing "Analyzing requirements..."
          :: ((match resolveTemplateInfo request with
              | some t => [statusEvent .analyzing ("Auto-selected: " ++ t.name ++ " template")]
              | none => []) ++ [questionEvent (patternDecisions request)])) = 1 := by
      rw [List.countP_cons_of_neg]
      · rw [List.countP_append, htmplCount]
        simp [List.countP_cons, questionEvent]
      · simp [statusEvent]
    rw [hana, hgen0]

/-- Witness for claim C9 with trivial oracles and no user preferences. -/
theorem error_handling_question_event_witness :
    "error-handling" ∈ (patternDecisions todoRequest).map (·.name) ∧
      ((generateStream stubOracles todoRequest).events.countP
        fun e => decide (e.type = .question)) = 1 := by
  have h := error_handling_question_event stubOracles todoRequest (by decide)
  exact ⟨h.1, h.2.2.1⟩

/-- Claim C2 counterexample: with the create-mode todo request and the
stub oracles, the emitted event sequence is not the claimed four-event
sequence `[status:analyzing, status:generating, status:validating,
result]`: the analyze phase additionally emits a second `analyzing`
status event (template auto-selection, the description matches the
rest-crud keyword set) and the informational `question` event, giving
six events. -/
theorem todo_stub_run_not_four_events :
    ¬ ((generateStream stubOracles todoRequest).events.map (fun e => (e.type, e.status))
        = [(.status, some .analyzing), (.status, some .generating),
            (.status, some .validating), (.result, none)]) := by
  decide

/-- Claim C2, amended: for the create-mode request with description
"A todo API with list and create endpoints", the Completion Oracle stub
returning a fixed valid minimal artifact and the Validation Oracle stub
returning valid, the event sequence is exactly [status:analyzing,
status:analyzing (template auto-selected), question (patterns-info),
status:generating, status:validating, result], and the result event's
spec equals the stub output after wrapper stripping. -/
theorem todo_stub_run_events :
    (generateStream stubOracles todoRequest).events
        = [statusEvent .analyzing "Analyzing requirements...",
            statusEvent .analyzing "Auto-selected: rest-crud template",
            questionEvent
              [{ name := "pagination", included := true,
                 reason := "Auto-detected list/search operations" },
               { name := "error-handling", included := true,
                 reason := "RFC 7807 Problem Details format" }],
            statusEvent .generating "Generating OpenAPI specification...",
            statusEvent .validating "Validating specification...",
            resultEvent (stripWrappers stubSpecContent)] ∧
      stripWrappers stubSpecContent = stubSpecContent := by
  decide

/-- A concrete parser stub for the C8 witness: a minimal parsed document
with no `components` section. -/
def docNoComponents : OpenApiDoc :=
  { openapi := some "3.1.0"
    paths := some [("/todos", { entries := [("get", { summary := some "List todos" })] })] }

/-- Witness for claim C8 at a concrete parser stub and input,
instantiating both the bounds and the missing-components consequence. -/
theorem assess_deterministic_bounds_witness :
    (0 ≤ (assess (fun _ => .ok docNoComponents) "spec").score.total ∧
        (assess (fun _ => .ok docNoComponents) "spec").score.total ≤ 100) ∧
      ((assess (fun _ => .ok docNoComponents) "spec").passed = true ↔
        85 ≤ (assess (fun _ => .ok docNoComponents) "spec").score.total) ∧
      (assess (fun _ => .ok docNoComponents) "spec").score.«structure» = 15 := by
  have h := assess_deterministic_bounds (fun _ => .ok docNoComponents) "spec"
  exact ⟨h.1, h.2.1, h.2.2.2.2.2.2 docNoComponents rfl rfl⟩

end ApiCatalog
